import Mathlib

/-!
Verification development for the coffee-scraper repository.

The definitions below are shallow embeddings of the TypeScript sources:
`src/scrape/tastingNotesValidator.ts`, `src/scrape/geminiClient.ts`,
`src/scrape/dataCleaner.ts` and `src/scrape/newcoffeescript.ts`.
JavaScript strings are modelled as Lean `String`, JS numbers as `ℚ`
(all the numbers involved here are exact decimals), timestamps
(`Date.now()`) as `ℕ` milliseconds, and `null`/`undefined` as `Option`.
-/

namespace CoffeeScraper

/-! ## JavaScript string primitives used by the sources -/

/-- JS `\s` character class restricted to its ASCII members — space (32),
tab (9), newline (10), carriage return (13), vertical tab (11), form feed
(12); the sources only ever meet ASCII whitespace. -/
def wsChar (c : Char) : Bool :=
  c.toNat == 32 || c.toNat == 9 || c.toNat == 10 || c.toNat == 13 ||
  c.toNat == 11 || c.toNat == 12

/-- Regex class `[a-z]` (ASCII 97–122). -/
def lowerAlpha (c : Char) : Bool := 97 ≤ c.toNat && c.toNat ≤ 122

/-- Regex class `[A-Z]` (ASCII 65–90). -/
def upperAlpha (c : Char) : Bool := 65 ≤ c.toNat && c.toNat ≤ 90

/-- Regex class `[0-9]` (ASCII 48–57). -/
def digitChar (c : Char) : Bool := 48 ≤ c.toNat && c.toNat ≤ 57

/-- Hex digit, case-insensitive (the color regex carries the `i` flag):
`[0-9]`, `[a-f]` (97–102) or `[A-F]` (65–70). -/
def hexDigitChar (c : Char) : Bool :=
  digitChar c || (97 ≤ c.toNat && c.toNat ≤ 102) || (65 ≤ c.toNat && c.toNat ≤ 70)

/-- Embeds `String.prototype.trim`, leading part. -/
def dropLeadingWs (l : List Char) : List Char := l.dropWhile wsChar

/-- Embeds `String.prototype.trim`, trailing part. -/
def dropTrailingWs (l : List Char) : List Char :=
  (l.reverse.dropWhile wsChar).reverse

def jsTrim (s : String) : String := ⟨dropTrailingWs (dropLeadingWs s.toList)⟩

/-- Embeds `String.prototype.toLowerCase` on one character; the strings handled
by the scraper are ASCII, where lowercasing shifts `A`–`Z` by 32 and fixes
everything else. -/
def jsCharLower (c : Char) : Char :=
  if upperAlpha c then Char.ofNat (c.toNat + 32) else c

/-- Embeds `String.prototype.toLowerCase`. -/
def jsLower (s : String) : String := ⟨s.toList.map jsCharLower⟩

def hasPfx (hay needle : List Char) : Bool :=
  match needle, hay with
  | [], _ => true
  | _ :: _, [] => false
  | b :: bs, a :: as => a == b && hasPfx as bs

def hasSubList : List Char → List Char → Bool
  | [], needle => hasPfx [] needle
  | c :: t, needle => hasPfx (c :: t) needle || hasSubList t needle

/-- Embeds `String.prototype.includes`. -/
def strIncludes (hay needle : String) : Bool := hasSubList hay.toList needle.toList

/-- Embeds `Math.round` (half toward +∞), as applied by the sanitizer to scores:
`⌊q + 1/2⌋`, written as the Euclidean division `(2·num + den) / (2·den)`
(the divisor is positive, so this is floor division) so that it evaluates
by kernel reduction. -/
def jsRound (q : ℚ) : ℤ := (2 * q.num + (q.den : ℤ)) / (2 * (q.den : ℤ))

/-! ## tastingNotesValidator.ts -/

/-- Embeds `tagRegex = /^[a-z][a-z\s\-]*[a-z]$|^[a-z]$/` : interior character class. -/
def tagCharMid (c : Char) : Bool := lowerAlpha c || wsChar c || c == '-'

/-- Tail of the first regex alternative: zero or more interior characters
followed by a final lowercase letter. -/
def tagTail : List Char → Bool
  | [] => false
  | [c] => lowerAlpha c
  | c :: rest => tagCharMid c && tagTail rest

/-- Full-string match of `tagRegex` on a character list: a single
lowercase letter, or a lowercase letter followed by interior characters
ending in a lowercase letter. -/
def tagRegexMatchL : List Char → Bool
  | [] => false
  | [c] => lowerAlpha c
  | c :: rest => lowerAlpha c && tagTail rest

/-- Full-string match of `tagRegex`. -/
def tagRegexMatch (s : String) : Bool := tagRegexMatchL s.toList

/-- Full-string match of `hexColorRegex = /^#[0-9a-f]{6}$/i` on a
character list: a `#` followed by exactly six hex digits. -/
def hexColorRegexMatchL : List Char → Bool
  | c :: rest => c == '#' && rest.length == 6 && rest.all hexDigitChar
  | [] => false

/-- Full-string match of `hexColorRegex`. -/
def hexColorRegexMatch (s : String) : Bool := hexColorRegexMatchL s.toList

/-- Embeds `z.number().int().min(1).max(5)`. -/
def scoreIntInRange (q : ℚ) : Bool :=
  q.den == 1 && decide ((1 : ℚ) ≤ q) && decide (q ≤ (5 : ℚ))

/-- A candidate attribute as it arrives from the LLM: each of the three
keys may be absent. -/
structure TastingAttrInput where
  score : Option ℚ
  tag : Option String
  color : Option String
deriving DecidableEq, Repr

/-- A candidate profile: each of the five attributes may be absent. -/
structure TastingNotesInput where
  fragrance_aroma : Option TastingAttrInput
  flavor : Option TastingAttrInput
  acidity : Option TastingAttrInput
  body : Option TastingAttrInput
  sweetness : Option TastingAttrInput
deriving DecidableEq, Repr

/-- Embeds `tastingAttributeSchema` output type. -/
structure TastingAttribute where
  score : ℚ
  tag : String
  color : String
deriving DecidableEq, Repr

/-- Embeds `tastingNotesSchema` output type (`TastingNotes` in the source). -/
structure TastingNotes where
  fragrance_aroma : TastingAttribute
  flavor : TastingAttribute
  acidity : TastingAttribute
  body : TastingAttribute
  sweetness : TastingAttribute
deriving DecidableEq, Repr

/-- Embeds `TastingNotesValidationResult` from the source. -/
structure TastingNotesValidationResult where
  success : Bool
  data : Option TastingNotes
  errors : Option (List String)
deriving DecidableEq, Repr

/-- Zod issues for the `score` key, path-qualified as the source does with
`err.path.join('.')`. -/
def scoreErrors (path : String) : Option ℚ → List String
  | none => [path ++ ".score: Required"]
  | some q =>
    if scoreIntInRange q then [] else [path ++ ".score: Expected integer between 1 and 5"]

/-- Zod issues for the `tag` key. -/
def tagErrors (path : String) : Option String → List String
  | none => [path ++ ".tag: Required"]
  | some t =>
    if tagRegexMatch t then []
    else [path ++ ".tag: Tag must be 1-3 lowercase words, may contain spaces or hyphens"]

/-- Zod issues for the `color` key. -/
def colorErrors (path : String) : Option String → List String
  | none => [path ++ ".color: Required"]
  | some c =>
    if hexColorRegexMatch c then []
    else [path ++ ".color: Color must be valid hex format #RRGGBB"]

/-- Embeds `tastingAttributeSchema.parse` on one (possibly absent) attribute:
issue list and, when clean, the parsed attribute. -/
def validateAttr (path : String) : Option TastingAttrInput → List String × Option TastingAttribute
  | none => ([path ++ ": Required"], none)
  | some a =>
    let es := scoreErrors path a.score ++ tagErrors path a.tag ++ colorErrors path a.color
    match a.score, a.tag, a.color with
    | some q, some t, some c => if es.isEmpty then ([], some ⟨q, t, c⟩) else (es, none)
    | _, _, _ => (es, none)

/-- Embeds `validateTastingNotes`: parse against `tastingNotesSchema`; on a Zod
error return the path-qualified message list. -/
def validateTastingNotes (input : TastingNotesInput) : TastingNotesValidationResult :=
  let r1 := validateAttr "fragrance_aroma" input.fragrance_aroma
  let r2 := validateAttr "flavor" input.flavor
  let r3 := validateAttr "acidity" input.acidity
  let r4 := validateAttr "body" input.body
  let r5 := validateAttr "sweetness" input.sweetness
  match r1.2, r2.2, r3.2, r4.2, r5.2 with
  | some v1, some v2, some v3, some v4, some v5 =>
    { success := true, data := some ⟨v1, v2, v3, v4, v5⟩, errors := none }
  | _, _, _, _, _ =>
    { success := false, data := none,
      errors := some (r1.1 ++ r2.1 ++ r3.1 ++ r4.1 ++ r5.1) }

/-- Embeds `color.startsWith('#')`. -/
def startsWithHash (s : String) : Bool :=
  match s.toList with
  | c :: _ => c == '#'
  | [] => false

/-- Embeds `if (!color.startsWith('#')) color = '#' + color`. -/
def ensureHash (s : String) : String :=
  if startsWithHash s then s else "#" ++ s

/-- Per-attribute body of `sanitizeTastingNotes`; the truthiness guards
(`attr.tag && ...` etc.) skip empty strings and a zero score. -/
def sanitizeAttr (a : TastingAttrInput) : TastingAttrInput where
  score :=
    match a.score with
    | some q => if q ≠ 0 then some ((jsRound q : ℤ) : ℚ) else some q
    | none => none
  tag :=
    match a.tag with
    | some t => if t ≠ "" then some (jsTrim (jsLower t)) else some t
    | none => none
  color :=
    match a.color with
    | some c => if c ≠ "" then some (ensureHash (jsLower (jsTrim c))) else some c
    | none => none

/-- Embeds `sanitizeTastingNotes`: each present attribute object is sanitized in
place. -/
def sanitizeTastingNotes (p : TastingNotesInput) : TastingNotesInput where
  fragrance_aroma := p.fragrance_aroma.map sanitizeAttr
  flavor := p.flavor.map sanitizeAttr
  acidity := p.acidity.map sanitizeAttr
  body := p.body.map sanitizeAttr
  sweetness := p.sweetness.map sanitizeAttr

/-! ## newcoffeescript.ts : reconciliation engine -/

/-- Embeds `ProductData` rows returned by a source collector. -/
structure ProductData where
  url : String
  price : Option ℚ
deriving DecidableEq, Repr

/-- One persisted `coffee_catalog` row, restricted to the columns the
reconciliation engine reads or writes plus the descriptive columns the
frame claims talk about. -/
structure CatalogRow where
  link : String
  source : String
  stocked : Bool
  cost_lb : Option ℚ
  unstocked_date : Option ℕ
  last_updated : Option ℕ
  stocked_date : Option ℕ
  name : Option String
  region : Option String
  processing : Option String
  cultivar_detail : Option String
  grade : Option String
  description_long : Option String
  description_short : Option String
  cupping_notes : Option String
  farm_notes : Option String
  ai_description : Option String
  ai_tasting_notes : Option String
deriving DecidableEq, Repr

/-- The in-stock URL filter inside `updateDatabase` (10 patterns). -/
def excludedByUpdateFilter (url : String) : Bool :=
  strIncludes url "roasted" || strIncludes url "subscription" ||
  strIncludes url "rstd-subs-" || strIncludes url "-set-" ||
  strIncludes url "-set.html" || strIncludes url "-blend" ||
  strIncludes url "-sampler" || strIncludes url "steves-favorites" ||
  strIncludes url "bag-ends" || strIncludes url "fruit-basket-combo-pack"

/-- The URL filter inside `checkExistingUrls` (8 patterns). -/
def excludedByCheckFilter (url : String) : Bool :=
  strIncludes url "roasted" || strIncludes url "subscription" ||
  strIncludes url "rstd-subs-" || strIncludes url "-set-" ||
  strIncludes url "-set.html" || strIncludes url "-blend" ||
  strIncludes url "-sampler" || strIncludes url "steves-favorites"

/-- Embeds `checkExistingUrls`: filter the candidate URLs, then keep the ones whose
`link` is not yet persisted for any source. -/
def checkExistingUrls (db : List CatalogRow) (urls : List String) : List String :=
  let filteredUrls := urls.filter (fun u => !excludedByCheckFilter u)
  let existingUrlSet := (db.filter (fun r => filteredUrls.contains r.link)).map (·.link)
  filteredUrls.filter (fun u => !existingUrlSet.contains u)

/-- Embeds `new Map(productsData.map((item) => [item.url, item.price]))` lookup:
the last entry for a URL wins. -/
def priceMapGet (productsData : List ProductData) (u : String) : Option ℚ :=
  match ((productsData.filter (fun p => p.url == u)).map (·.price)).getLast? with
  | some p => p
  | none => none

/-- Fields of a freshly scraped-and-cleaned product (`scrapedData` merged
with `cleaningResult.cleanedData`) that flow into the insert statement. -/
structure NewProductData where
  name : Option String
  cost_lb : Option ℚ
  region : Option String
  processing : Option String
  cultivar_detail : Option String
  grade : Option String
  description_long : Option String
  description_short : Option String
  cupping_notes : Option String
  farm_notes : Option String
  ai_description : Option String
  ai_tasting_notes : Option String
deriving DecidableEq, Repr

/-- The row inserted for a new product: `stocked = true`, `stocked_date`
and `last_updated` set to now, `unstocked_date` unset. -/
def mkInsertRow (src url : String) (d : NewProductData) (now : ℕ) : CatalogRow where
  link := url
  source := src
  stocked := true
  cost_lb := d.cost_lb
  unstocked_date := none
  last_updated := some now
  stocked_date := some now
  name := d.name
  region := d.region
  processing := d.processing
  cultivar_detail := d.cultivar_detail
  grade := d.grade
  description_long := d.description_long
  description_short := d.description_short
  cupping_notes := d.cupping_notes
  farm_notes := d.farm_notes
  ai_description := d.ai_description
  ai_tasting_notes := d.ai_tasting_notes

/-- Result of one `updateDatabase` run: the success flag and reason it
returns, the database rows afterwards, and the new URLs it handed to
detail fetch + enrichment. -/
structure UpdateResult where
  success : Bool
  reason : Option String
  db : List CatalogRow
  processedNewUrls : List String
deriving DecidableEq, Repr

/-- Embeds `updateDatabase(source)`, shallow-embedded.  `collected` is what
`source.collectInitUrlsData()` returned; `detail url` abstracts
`source.scrapeUrl` followed by `dataCleaner.batchCleanFields` (`none`
models `scrapeUrl` returning `null`); `now` is the run's clock. -/
def updateDatabase (src : String) (collected : List ProductData)
    (db : List CatalogRow) (detail : String → Option NewProductData)
    (now : ℕ) : UpdateResult :=
  let unfilteredUrls := collected.map (·.url)
  let inStockUrls := unfilteredUrls.filter (fun u => !excludedByUpdateFilter u)
  if inStockUrls.isEmpty then
    { success := false, reason := some "No URLs collected", db := db, processedNewUrls := [] }
  else
    let stockedDbLinks := (db.filter (fun r => r.source == src && r.stocked)).map (·.link)
    let noLongerStockedUrls := stockedDbLinks.filter (fun l => !inStockUrls.contains l)
    let db1 := db.map (fun r =>
      if noLongerStockedUrls.contains r.link && r.source == src then
        { r with stocked := false, unstocked_date := some now, last_updated := some now }
      else r)
    let db2 := inStockUrls.foldl (fun d u =>
      d.map (fun r =>
        if r.link == u && r.source == src then
          { r with stocked := true, cost_lb := priceMapGet collected u }
        else r)) db1
    let newUrls := checkExistingUrls db2 inStockUrls
    let db3 := newUrls.foldl (fun d u =>
      match detail u with
      | some nd => d ++ [mkInsertRow src u nd now]
      | none => d) db2
    { success := true, reason := none, db := db3, processedNewUrls := newUrls }

/-- Embeds `SweetMariasSource.collectInitUrlsData`: the whole collection runs in a
`try`; the `catch` arm returns `[]` instead of throwing.  The `.ok` payload
abstracts the DOM extraction's `filteredResults`. -/
def sweetMariasCollect (fetchOutcome : Except String (List ProductData)) : List ProductData :=
  match fetchOutcome with
  | .ok results => results
  | .error _ => []

/-! ## geminiClient.ts : RateLimiter -/

def maxCalls : ℕ := 10
def timeWindowMs : ℕ := 60000
def minDelayMs : ℕ := 6000

def listMinNat (l : List ℕ) : ℕ := l.foldl Nat.min (l.headD 0)

def listMaxNat (l : List ℕ) : ℕ := l.foldl Nat.max 0

/-- Body of `RateLimiter.waitForRateLimit`, fuelled: the method first drops
timestamps outside the trailing window, busy-waits (recursing) while the
window is full, then enforces the minimum spacing and records the return
instant.  Returns the timestamp list after the call and the instant the
method returns (the single caller's next `Date.now()`).  Each recursion
pushes the oldest active timestamp out of the window, so `ts.length + 1`
fuel always suffices. -/
def waitForRateLimitAux : ℕ → List ℕ → ℕ → List ℕ × ℕ
  | 0, ts, now => (ts, now)
  | fuel + 1, ts, now =>
    let active := ts.filter (fun t => now - t < timeWindowMs)
    if maxCalls ≤ active.length then
      let oldestCall := listMinNat active
      let waitTime := timeWindowMs - (now - oldestCall) + 1000
      waitForRateLimitAux fuel active (now + waitTime)
    else
      let ret :=
        if active.length ≠ 0 && now - listMaxNat active < minDelayMs then
          now + (minDelayMs - (now - listMaxNat active))
        else now
      (active ++ [ret], ret)

def waitForRateLimit (ts : List ℕ) (now : ℕ) : List ℕ × ℕ :=
  waitForRateLimitAux (ts.length + 1) ts now

/-- Issues `n` calls in immediate succession through one `RateLimiter`:
each call is issued the instant the previous one returns.  Produces the
recorded call instants together with the limiter state after each call. -/
def runCalls : ℕ → List ℕ → ℕ → List (ℕ × List ℕ)
  | 0, _, _ => []
  | n + 1, ts, now =>
    let r := waitForRateLimit ts now
    (r.2, r.1) :: runCalls n r.1 r.2

/-- Embeds `RateLimiter.handleRateLimitError`: sleep a flat 60 s and clear the
timestamp window.  Returns (new window state, wait in ms). -/
def handleRateLimitError (_ts : List ℕ) : List ℕ × ℕ := ([], 60000)

/-- Embeds `RateLimiter.isRateLimitError`.  An error is a JS object with optional
`status` and `message`. -/
structure JsErr where
  status : Option ℕ
  message : Option String
deriving DecidableEq, Repr

def msgIncl (e : JsErr) (needle : String) : Bool :=
  match e.message with
  | some m => strIncludes m needle
  | none => false

def isRateLimitError (e : JsErr) : Bool :=
  e.status == some 429 || msgIncl e "rate limit" || msgIncl e "quota" || msgIncl e "429"

/-! ## geminiClient.ts : GeminiClient model-fallback state machine -/

def modelFailureThreshold : ℕ := 2
def cooldownPeriodMs : ℕ := 600000

/-- Embeds `ModelConfig` from the source. -/
structure ModelConfig where
  name : String
  failureCount : ℕ
  lastFailureTime : ℕ
deriving DecidableEq, Repr

/-- The mutable client state: the model array and the current index. -/
structure ClientState where
  models : List ModelConfig
  currentModelIndex : ℕ
deriving DecidableEq, Repr

def getModel (ms : List ModelConfig) (j : ℕ) : ModelConfig := ms.getD j ⟨"", 0, 0⟩

def setModel (ms : List ModelConfig) (j : ℕ) (m : ModelConfig) : List ModelConfig := ms.set j m

/-- The initial model list of the current client revision. -/
def initialModels : List ModelConfig :=
  [⟨"gemini-2.5-flash-preview-04-17", 0, 0⟩, ⟨"gemini-2.5-flash", 0, 0⟩,
   ⟨"gemini-2.5-flash-lite-preview-06-17", 0, 0⟩, ⟨"gemini-2.0-flash-exp", 0, 0⟩]

/-- The `for (let i = 1; i < this.models.length; i++)` scan inside
`switchToNextModel`, walking the precomputed wrapped index order: index 0
is skipped while its cooldown runs and has its failure count reset once
the cooldown has elapsed; the first index under the failure threshold is
selected. -/
def scanModels (now : ℕ) : List ℕ → List ModelConfig → Option ℕ × List ModelConfig
  | [], ms => (none, ms)
  | j :: rest, ms =>
    if j = 0 then
      let m0 := getModel ms 0
      if now - m0.lastFailureTime < cooldownPeriodMs then
        scanModels now rest ms
      else
        let ms2 := setModel ms 0 { m0 with failureCount := 0 }
        if (getModel ms2 j).failureCount < modelFailureThreshold then (some j, ms2)
        else scanModels now rest ms2
    else
      if (getModel ms j).failureCount < modelFailureThreshold then (some j, ms)
      else scanModels now rest ms

/-- The wrapped index order `(cur + 1) % len, (cur + 2) % len, ...` visited
by the scan. -/
def wrapIdxs (cur len : ℕ) : List ℕ :=
  (List.range (len - 1)).map (fun i => (cur + 1 + i) % len)

/-- The first two statements of `switchToNextModel`:
`currentModel.failureCount++; currentModel.lastFailureTime = Date.now()`. -/
def bumpModels (st : ClientState) (now : ℕ) : List ModelConfig :=
  setModel st.models st.currentModelIndex
    { getModel st.models st.currentModelIndex with
      failureCount := (getModel st.models st.currentModelIndex).failureCount + 1
      lastFailureTime := now }

/-- Embeds `GeminiClient.switchToNextModel`: bump the current model's failure
count and record the failure instant; once the threshold is reached, scan
forward for a usable model.  Returns `false` when every candidate is
blocked. -/
def switchToNextModel (st : ClientState) (now : ℕ) : Bool × ClientState :=
  let cur := st.currentModelIndex
  let bumped := bumpModels st now
  if modelFailureThreshold ≤ (getModel bumped cur).failureCount then
    match scanModels now (wrapIdxs cur bumped.length) bumped with
    | (some j, ms) => (true, { models := ms, currentModelIndex := j })
    | (none, ms) => (false, { models := ms, currentModelIndex := cur })
  else
    (true, { st with models := bumped })

/-- Embeds `GeminiClient.handleModelFailure`: on a failed switch, block for the
remainder of the primary model's cooldown, then reset to the primary model
with a zero failure count.  Returns the state afterwards and the blocked
duration in ms. -/
def handleModelFailure (st : ClientState) (now : ℕ) : ClientState × ℕ :=
  match switchToNextModel st now with
  | (true, st2) => (st2, 0)
  | (false, st2) =>
    let primaryModel := getModel st2.models 0
    let timeSinceLastFailure := now - primaryModel.lastFailureTime
    let waitTime := cooldownPeriodMs - timeSinceLastFailure
    if 0 < waitTime then
      ({ models := setModel st2.models 0 { primaryModel with failureCount := 0 },
         currentModelIndex := 0 }, waitTime)
    else (st2, 0)

/-! ## geminiClient.ts : error dispatch inside generateContent

The repository carries two revisions of `GeminiClient.generateContent`.
The earlier revision checks `rateLimiter.isRateLimitError` first and runs
the flat 60 s cooldown; the current revision (the one that also defines
`generateAiTastingNotes`) folds rate-limit signatures into
`isModelBlocked` and never reaches the cooldown. -/

/-- Embeds `isModelBlocked` of the earlier client revision. -/
def isModelBlockedV1 (e : JsErr) : Bool :=
  e.status == some 429 || e.status == some 403 ||
  msgIncl e "quota" || msgIncl e "limit" || msgIncl e "blocked" ||
  msgIncl e "429" || msgIncl e "403"

/-- Embeds `isModelBlocked` of the current client revision. -/
def isModelBlockedV2 (e : JsErr) : Bool :=
  e.status == some 429 || e.status == some 403 ||
  msgIncl e "quota" || msgIncl e "limit" || msgIncl e "blocked" ||
  msgIncl e "429" || msgIncl e "403" ||
  msgIncl e "rate limit" || msgIncl e "Too Many Requests"

/-- What the `catch` arm of one `generateContent` loop iteration does with
an error. -/
inductive ErrAction where
  /-- Embeds `rateLimiter.handleRateLimitError()` then `attempt--; continue`:
  60 s cooldown, window cleared, retry not consumed. -/
  | rateLimitCooldown
  /-- Embeds `handleModelFailure()` then `attempt--; continue` (or terminal
  failure when every model is blocked): retry not consumed. -/
  | modelFailurePath
  /-- fall through to the retry/terminal-failure accounting: consumes the
  attempt. -/
  | retryOrFail
deriving DecidableEq, Repr

/-- Error dispatch of the earlier `generateContent` revision. -/
def dispatchV1 (e : JsErr) : ErrAction :=
  if isRateLimitError e then .rateLimitCooldown
  else if isModelBlockedV1 e then .modelFailurePath
  else .retryOrFail

/-- Error dispatch of the current `generateContent` revision. -/
def dispatchV2 (e : JsErr) : ErrAction :=
  if isModelBlockedV2 e then .modelFailurePath
  else .retryOrFail

/-- Whether the dispatched action consumes one of the `maxRetries`
attempts (`attempt--` undoes the loop increment in the other arms). -/
def consumesAttempt : ErrAction → Bool
  | .retryOrFail => true
  | _ => false

/-! ## dataCleaner.ts + geminiClient.ts : AI tasting-notes generation -/

def tastingPromptHead : String :=
  "\nYou are a certified Q-grader.\nRead a free-form coffee descriptions and return a tasting profile as _strict_ JSON.\n✱ Use **only** the schema below.\n✱ Do **not** wrap the JSON in markdown.\n✱ Each attribute must have:\n• score — integer 1-5\n• tag — 1-3 words, lower-case, separated by spaces; can be independent descriptors or phrase descriptors; tags should be creative and unique\n• color — hex code (e.g. \"#7f4a94\") that visually represents the tag; colors should be **vibrant**; you **CANNOT** use bland colors such as gray, brown, tan unless *highly* relevant to the coffee tags\n\nSCALE GUIDE\n1 = very weak / defective 2 = weak 3 = moderate 4 = strong 5 = exceptional\n\nATTRIBUTE EXAMPLES\nfragrance_aroma – jasmine (#e5e4e2), cocoa (#4b3621)\nflavor – berry (#b3164b), caramel (#c68f53)\nacidity – bright (#f4d35e), mellow (#a3c1ad)\nbody – light (#d7ccc8), syrupy (#5d4037)\nsweetness – honey like (#e4b169), brown sugar (#6f4e37)\n\nOUTPUT SCHEMA\n\x7b\n\"fragrance_aroma\": \x7b \"score\": <1-5>, \"tag\": \"<1 to 3 words>\", \"color\": \"<#RRGGBB>\" \x7d,\n\"flavor\": \x7b \"score\": <1-5>, \"tag\": \"<1 to 3 words>\", \"color\": \"<#RRGGBB>\" \x7d,\n\"acidity\": \x7b \"score\": <1-5>, \"tag\": \"<1 to 3 words>\", \"color\": \"<#RRGGBB>\" \x7d,\n\"body\": \x7b \"score\": <1-5>, \"tag\": \"<1 to 3 words>\", \"color\": \"<#RRGGBB>\" \x7d,\n\"sweetness\": \x7b \"score\": <1-5>, \"tag\": \"<1 to 3 words>\", \"color\": \"<#RRGGBB>\" \x7d\n\x7d\n\nDefault rule: if unsure of an output, infer from context or assign score 3 and tag \"balanced\" with color \"#8b5a2b\".\n\nFEW-SHOT EXAMPLES:\n\nExample 1:\n\x7b\n\"fragrance_aroma\": \x7b \"score\": 5, \"tag\": \"blueberry jam\", \"color\": \"#4f2a57\" \x7d,\n\"flavor\": \x7b \"score\": 5, \"tag\": \"cola cherry raspberry\", \"color\": \"#b3164b\" \x7d,\n\"acidity\": \x7b \"score\": 4, \"tag\": \"lemon lime citrus\", \"color\": \"#d0e36c\" \x7d,\n\"body\": \x7b \"score\": 3, \"tag\": \"medium\", \"color\": \"#d7ccc8\" \x7d,\n\"sweetness\": \x7b \"score\": 4, \"tag\": \"honey like syrup\", \"color\": \"#e4b169\" \x7d\n\x7d\n\nExample 2:\n\x7b\n\"fragrance_aroma\": \x7b \"score\": 3, \"tag\": \"peanutty\", \"color\": \"#c69c6d\" \x7d,\n\"flavor\": \x7b \"score\": 3, \"tag\": \"milk chocolate nougat\", \"color\": \"#7b4b2a\" \x7d,\n\"acidity\": \x7b \"score\": 2, \"tag\": \"soft short\", \"color\": \"#a3c1ad\" \x7d,\n\"body\": \x7b \"score\": 4, \"tag\": \"creamy\", \"color\": \"#bfa58f\" \x7d,\n\"sweetness\": \x7b \"score\": 3, \"tag\": \"brown sugar\", \"color\": \"#6f4e37\" \x7d\n\x7d\n\nSOURCE MATERIAL:\n\"\""

def tastingPromptTail : String :=
  "\"\"\n\nGenerate tasting notes following the exact schema above. Return only the JSON object, no additional text.\n"

/-- JS truthiness of a `string | null` value. -/
def truthyStr : Option String → Bool
  | some s => s != ""
  | none => false

/-- The `availableDescriptions` array of `generateAiTastingNotes`: the
labelled free-text sources that are truthy. -/
def labeledTastingParts (descriptionLong descriptionShort cuppingNotes : Option String) :
    List String :=
  (if truthyStr descriptionLong then ["Long Description: " ++ descriptionLong.getD ""] else []) ++
  (if truthyStr descriptionShort then ["Short Description: " ++ descriptionShort.getD ""] else []) ++
  (if truthyStr cuppingNotes then ["Cupping Notes: " ++ cuppingNotes.getD ""] else [])

/-- Embeds `availableDescriptions` after `.filter(Boolean).join('\n\n')`. -/
def availableTastingDescriptions (descriptionLong descriptionShort cuppingNotes : Option String) :
    String :=
  String.intercalate "\n\n" (labeledTastingParts descriptionLong descriptionShort cuppingNotes)

/-- The full `tastingNotesPrompt` template with its interpolated source
material. -/
def tastingNotesPrompt (descriptionLong descriptionShort cuppingNotes : Option String) : String :=
  tastingPromptHead ++
    availableTastingDescriptions descriptionLong descriptionShort cuppingNotes ++
    tastingPromptTail

/-- The `GeminiResponse`-shaped result of
`GeminiClient.generateAiTastingNotes`. -/
structure TastingGenResult where
  success : Bool
  data : Option TastingNotes
  error : Option String
deriving DecidableEq, Repr

/-- Embeds `GeminiClient.generateAiTastingNotes` (current revision).  `gen`
abstracts `generateContent` (provider call), `parse` abstracts
`JSON.parse` after the markdown-fence strip; the sanitize/validate steps
are the embedded functions above. -/
def generateAiTastingNotesClient (descriptionLong descriptionShort cuppingNotes : Option String)
    (gen : String → Except String String)
    (parse : String → Option TastingNotesInput) : TastingGenResult :=
  if availableTastingDescriptions descriptionLong descriptionShort cuppingNotes == "" then
    { success := false, data := none,
      error := some "No description text available for AI tasting notes generation" }
  else
    match gen (tastingNotesPrompt descriptionLong descriptionShort cuppingNotes) with
    | .error e => { success := false, data := none, error := some e }
    | .ok txt =>
      match parse txt with
      | none => { success := false, data := none,
                  error := some ("Failed to parse tasting notes JSON. Raw response: " ++ txt) }
      | some parsedData =>
        let sanitizedData := sanitizeTastingNotes parsedData
        let validationResult := validateTastingNotes sanitizedData
        if validationResult.success then
          { success := true, data := validationResult.data, error := none }
        else
          { success := false, data := none,
            error := some ("Tasting notes validation failed: " ++
              String.intercalate ", " (validationResult.errors.getD []) ++
              ". Raw response: " ++ txt) }

/-- The free-text fields of `ScrapedDataForCleaning` that feed AI
generation. -/
structure CleaningData where
  descriptionLong : Option String
  descriptionShort : Option String
  farmNotes : Option String
  cuppingNotes : Option String
deriving DecidableEq, Repr

/-- Embeds `DataCleaner.isNullOrEmpty` on a `string | null` field. -/
def isNullOrEmpty : Option String → Bool
  | none => true
  | some s => jsTrim s == ""

/-- Embeds `DataCleaner.hasAvailableTastingData`. -/
def hasAvailableTastingData (d : CleaningData) : Bool :=
  !isNullOrEmpty d.descriptionLong || !isNullOrEmpty d.descriptionShort ||
  !isNullOrEmpty d.cuppingNotes

/-- Embeds `DataCleaner.generateAiTastingNotes`: gate on available tasting data,
delegate to the client with (long, short, cupping) — farm notes are not
passed — and surface a failure as `null`. -/
def generateAiTastingNotesCleaner (d : CleaningData)
    (gen : String → Except String String)
    (parse : String → Option TastingNotesInput) : Option TastingNotes :=
  if !hasAvailableTastingData d then none
  else
    let response := generateAiTastingNotesClient d.descriptionLong d.descriptionShort
      d.cuppingNotes gen parse
    if response.success then response.data else none

/-! ## Spec-side predicates about the model-fallback machine -/

/-- The claim's notion of a model index qualifying during the forward
scan: the primary model qualifies once its 10-minute cooldown has
elapsed (its failure count is then reset, hence under the threshold);
any other model qualifies when its failure count is under the
threshold. -/
def qualifiesSpec (ms : List ModelConfig) (now : ℕ) (j : ℕ) : Bool :=
  if j = 0 then cooldownPeriodMs ≤ now - (getModel ms 0).lastFailureTime
  else (getModel ms j).failureCount < modelFailureThreshold

/-! ## Spec-side predicates about profiles (used to state the claims) -/

/-- The score is present, an integer, and within `[1, 5]`. -/
def scoreOkB : Option ℚ → Bool
  | none => false
  | some q => scoreIntInRange q

/-- The tag is present and contains an uppercase letter or a digit. -/
def tagUpperOrDigit : Option String → Bool
  | none => false
  | some t => t.toList.any (fun c => upperAlpha c || digitChar c)

/-- The color is present and a valid (case-insensitive) `#RRGGBB` code. -/
def colorOkB : Option String → Bool
  | none => false
  | some c => hexColorRegexMatch c

/-- One of the defects enumerated by the claim, at one attribute: the
attribute missing, its score not an integer in `[1, 5]`, its tag
containing uppercase letters or digits, or its color malformed. -/
def attrDefective : Option TastingAttrInput → Bool
  | none => true
  | some a => !scoreOkB a.score || tagUpperOrDigit a.tag || !colorOkB a.color

/-- Some attribute of the profile has one of the enumerated defects. -/
def profileDefective (p : TastingNotesInput) : Bool :=
  attrDefective p.fragrance_aroma || attrDefective p.flavor || attrDefective p.acidity ||
  attrDefective p.body || attrDefective p.sweetness

/-- All colors present in the profile are free of uppercase letters. -/
def attrColorLower : Option TastingAttrInput → Bool
  | none => true
  | some a =>
    match a.color with
    | some c => c.toList.all (fun ch => !upperAlpha ch)
    | none => true

def colorsAlreadyLower (p : TastingNotesInput) : Bool :=
  attrColorLower p.fragrance_aroma && attrColorLower p.flavor && attrColorLower p.acidity &&
  attrColorLower p.body && attrColorLower p.sweetness

/-- Lowercase the color of one attribute, leaving score and tag alone. -/
def lowerAttrColor (a : TastingAttrInput) : TastingAttrInput :=
  { a with color := a.color.map jsLower }

/-- Lowercase every color of the profile — what sanitization amounts to on
already-valid profiles. -/
def mapColorsLower (p : TastingNotesInput) : TastingNotesInput where
  fragrance_aroma := p.fragrance_aroma.map lowerAttrColor
  flavor := p.flavor.map lowerAttrColor
  acidity := p.acidity.map lowerAttrColor
  body := p.body.map lowerAttrColor
  sweetness := p.sweetness.map lowerAttrColor

/-! ## Concrete inputs used by witnesses and counterexamples -/

/-- A minimal persisted row marked stocked. -/
def demoStockedRow (link src : String) : CatalogRow where
  link := link
  source := src
  stocked := true
  cost_lb := some 7
  unstocked_date := none
  last_updated := none
  stocked_date := some 1
  name := some "Demo Coffee"
  region := some "Huila, Colombia"
  processing := some "Washed"
  cultivar_detail := some "Typica"
  grade := some "1,500 masl"
  description_long := some "long text"
  description_short := some "short text"
  cupping_notes := some "cup text"
  farm_notes := some "farm text"
  ai_description := some "ai text"
  ai_tasting_notes := some "ai notes"

/-- A rate-limit-shaped provider error (HTTP 429). -/
def err429RateLimit : JsErr :=
  ⟨some 429, some "429 Too Many Requests: rate limit exceeded"⟩

def demoAttr (q : ℚ) (tg col : String) : TastingAttrInput := ⟨some q, some tg, some col⟩

/-- A profile that is valid under the case-insensitive color regex but
carries one uppercase hex color. -/
def upperColorProfile : TastingNotesInput :=
  ⟨some (demoAttr 4 "jasmine" "#ABCDEF"), some (demoAttr 5 "berry" "#b3164b"),
   some (demoAttr 4 "bright" "#f4d35e"), some (demoAttr 3 "syrupy" "#5d4037"),
   some (demoAttr 4 "honey like" "#e4b169")⟩

/-- The same profile with every color already lowercase. -/
def lowerColorProfile : TastingNotesInput :=
  ⟨some (demoAttr 4 "jasmine" "#abcdef"), some (demoAttr 5 "berry" "#b3164b"),
   some (demoAttr 4 "bright" "#f4d35e"), some (demoAttr 3 "syrupy" "#5d4037"),
   some (demoAttr 4 "honey like" "#e4b169")⟩

/-- A profile with the `flavor` attribute absent. -/
def missingFlavorProfile : TastingNotesInput :=
  ⟨some (demoAttr 4 "jasmine" "#abcdef"), none,
   some (demoAttr 4 "bright" "#f4d35e"), some (demoAttr 3 "syrupy" "#5d4037"),
   some (demoAttr 4 "honey like" "#e4b169")⟩

/-- A fresh client state on the primary model. -/
def fallbackDemoState : ClientState :=
  { models := initialModels, currentModelIndex := 0 }

/-- A provider stub that returns a fixed response text. -/
def genDemo : String → Except String String := fun _ => Except.ok "notes-json"

/-- A JSON-parse stub returning a fixed parsed profile. -/
def parseDemo : String → Option TastingNotesInput := fun _ => some lowerColorProfile

/-- The validated profile corresponding to `lowerColorProfile`. -/
def demoValidNotes : TastingNotes :=
  ⟨⟨4, "jasmine", "#abcdef"⟩, ⟨5, "berry", "#b3164b"⟩, ⟨4, "bright", "#f4d35e"⟩,
   ⟨3, "syrupy", "#5d4037"⟩, ⟨4, "honey like", "#e4b169"⟩⟩

/-- Scraped item whose farm notes are available and distinct from its
cupping notes. -/
def farmNotesData : CleaningData :=
  ⟨some "a long description", none, some "exceptional farm story", some "berry aromatics"⟩

/-! ## Theorems -/

/-! ### Character and string lemmas -/

theorem toNat_ofNat_of_lt {n : ℕ} (h : n < 55296) : (Char.ofNat n).toNat = n := by
  have hv : n.isValidChar := Or.inl h
  simp [Char.ofNat, hv, Char.ofNatAux, Char.toNat, UInt32.toNat]

theorem jsCharLower_fix {c : Char} (h : upperAlpha c = false) : jsCharLower c = c := by
  simp [jsCharLower, h]

theorem upperAlpha_jsCharLower (c : Char) : upperAlpha (jsCharLower c) = false := by
  unfold jsCharLower
  by_cases h : upperAlpha c = true
  · rw [if_pos h]
    simp only [upperAlpha, Bool.and_eq_true, decide_eq_true_eq] at h
    have hb : c.toNat + 32 < 55296 := by omega
    simp only [upperAlpha, toNat_ofNat_of_lt hb]
    simp
    omega
  · rw [if_neg h]
    simpa using h

theorem hexDigitChar_jsCharLower {c : Char} (h : hexDigitChar c = true) :
    hexDigitChar (jsCharLower c) = true := by
  unfold jsCharLower
  by_cases hu : upperAlpha c = true
  · rw [if_pos hu]
    simp only [upperAlpha, Bool.and_eq_true, decide_eq_true_eq] at hu
    have hb : c.toNat + 32 < 55296 := by omega
    simp only [hexDigitChar, digitChar, toNat_ofNat_of_lt hb] at h ⊢
    simp only [Bool.or_eq_true, Bool.and_eq_true, decide_eq_true_eq] at h ⊢
    omega
  · rw [if_neg hu]
    exact h

theorem wsChar_false_of_lowerAlpha {c : Char} (h : lowerAlpha c = true) :
    wsChar c = false := by
  simp [lowerAlpha] at h
  simp [wsChar]
  omega

theorem wsChar_false_of_hexDigit {c : Char} (h : hexDigitChar c = true) :
    wsChar c = false := by
  simp [hexDigitChar, digitChar] at h
  simp [wsChar]
  omega

theorem jsCharLower_fix_of_tagCharMid {c : Char} (h : tagCharMid c = true) :
    jsCharLower c = c := by
  apply jsCharLower_fix
  simp only [tagCharMid, Bool.or_eq_true, beq_iff_eq] at h
  rcases h with h | h
  · rcases h with h | h
    · simp only [lowerAlpha, Bool.and_eq_true, decide_eq_true_eq] at h
      simp [upperAlpha]
      omega
    · simp only [wsChar, Bool.or_eq_true, beq_iff_eq] at h
      simp [upperAlpha]
      omega
  · subst h
    decide

theorem map_id_of_fix {f : Char → Char} :
    ∀ l : List Char, (∀ c ∈ l, f c = c) → l.map f = l := by
  intro l
  induction l with
  | nil => intro _; rfl
  | cons c t ih =>
    intro h
    simp only [List.map_cons, h c (by simp)]
    rw [ih (fun d hd => h d (by simp [hd]))]

theorem dropLeadingWs_eq_self {l : List Char} (h : ∀ c ∈ l.head?, wsChar c = false) :
    dropLeadingWs l = l := by
  cases l with
  | nil => rfl
  | cons c t =>
    have hc : wsChar c = false := h c (by simp)
    simp [dropLeadingWs, List.dropWhile_cons, hc]

theorem dropTrailingWs_eq_self {l : List Char} (h : ∀ c ∈ l.getLast?, wsChar c = false) :
    dropTrailingWs l = l := by
  unfold dropTrailingWs
  have h2 : ∀ c ∈ l.reverse.head?, wsChar c = false := by
    intro c hc
    exact h c (by rwa [List.head?_reverse] at hc)
  have : l.reverse.dropWhile wsChar = l.reverse := by
    have := dropLeadingWs_eq_self h2
    simpa [dropLeadingWs] using this
  rw [this, List.reverse_reverse]

theorem jsTrim_eq_self {s : String}
    (h1 : ∀ c ∈ s.toList.head?, wsChar c = false)
    (h2 : ∀ c ∈ s.toList.getLast?, wsChar c = false) : jsTrim s = s := by
  unfold jsTrim
  rw [dropLeadingWs_eq_self h1, dropTrailingWs_eq_self h2]
  rfl

theorem hasPfx_append (a b : List Char) : hasPfx (a ++ b) a = true := by
  induction a with
  | nil => simp [hasPfx]
  | cons c t ih => simp [hasPfx, ih]

theorem hasPfx_str_append (a b : String) : hasPfx (a ++ b).toList a.toList = true := by
  have hab : (a ++ b).toList = a.toList ++ b.toList := rfl
  rw [hab]
  exact hasPfx_append _ _

/-! ### Tag and color regex lemmas -/

theorem tagTail_all {l : List Char} (h : tagTail l = true) :
    ∀ c ∈ l, tagCharMid c = true := by
  induction l with
  | nil => simp
  | cons c t ih =>
    cases t with
    | nil =>
      intro d hd
      simp at hd
      subst hd
      simp [tagTail] at h
      simp [tagCharMid, lowerAlpha] at h ⊢
      omega
    | cons c2 t2 =>
      simp only [tagTail, Bool.and_eq_true] at h
      intro d hd
      rcases List.mem_cons.mp hd with rfl | hd2
      · exact h.1
      · exact ih h.2 d hd2

theorem tagTail_last {l : List Char} (h : tagTail l = true) :
    ∃ c t, l.reverse = c :: t ∧ lowerAlpha c = true := by
  induction l with
  | nil => simp [tagTail] at h
  | cons c t ih =>
    cases t with
    | nil =>
      refine ⟨c, [], by simp, ?_⟩
      simpa [tagTail] using h
    | cons c2 t2 =>
      simp only [tagTail, Bool.and_eq_true] at h
      obtain ⟨d, t3, hrev, hd⟩ := ih h.2
      exact ⟨d, t3 ++ [c], by simp [hrev], hd⟩

theorem tagRegexMatchL_chars {l : List Char} (h : tagRegexMatchL l = true) :
    ∀ c ∈ l, tagCharMid c = true := by
  intro c hc
  cases l with
  | nil => simp at hc
  | cons c0 t =>
    cases t with
    | nil =>
      simp at hc
      subst hc
      simp [tagRegexMatchL] at h
      simp [tagCharMid, h]
    | cons c2 t2 =>
      simp only [tagRegexMatchL, Bool.and_eq_true] at h
      rcases List.mem_cons.mp hc with rfl | hc2
      · simp [tagCharMid, h.1]
      · exact tagTail_all h.2 c hc2

theorem tagCharMid_no_upper_digit {c : Char} (h : tagCharMid c = true) :
    (upperAlpha c || digitChar c) = false := by
  simp only [tagCharMid, Bool.or_eq_true, beq_iff_eq] at h
  rcases h with h | h
  · rcases h with h | h
    · simp only [lowerAlpha, Bool.and_eq_true, decide_eq_true_eq] at h
      simp [upperAlpha, digitChar]
      omega
    · simp only [wsChar, Bool.or_eq_true, beq_iff_eq] at h
      simp [upperAlpha, digitChar]
      omega
  · subst h
    decide

theorem tagRegexMatch_false_of_upper_digit {t : String}
    (h : t.toList.any (fun c => upperAlpha c || digitChar c) = true) :
    tagRegexMatch t = false := by
  rcases List.any_eq_true.mp h with ⟨c, hc, hbad⟩
  cases hm : tagRegexMatch t
  · rfl
  · have hmid := tagRegexMatchL_chars hm c hc
    rw [tagCharMid_no_upper_digit hmid] at hbad
    exact absurd hbad (by simp)

/-! ### Validator lemmas -/

theorem scoreErrors_ne {path : String} {os : Option ℚ} (h : scoreOkB os = false) :
    scoreErrors path os ≠ [] := by
  cases os with
  | none => simp [scoreErrors]
  | some q =>
    simp only [scoreOkB] at h
    simp [scoreErrors, h]

theorem tagErrors_ne {path : String} {ot : Option String} (h : tagUpperOrDigit ot = true) :
    tagErrors path ot ≠ [] := by
  cases ot with
  | none => simp [tagErrors]
  | some t =>
    simp only [tagUpperOrDigit] at h
    simp [tagErrors, tagRegexMatch_false_of_upper_digit h]

theorem colorErrors_ne {path : String} {oc : Option String} (h : colorOkB oc = false) :
    colorErrors path oc ≠ [] := by
  cases oc with
  | none => simp [colorErrors]
  | some c =>
    simp only [colorOkB] at h
    simp [colorErrors, h]

theorem validateAttr_of_defective {path : String} {oa : Option TastingAttrInput}
    (h : attrDefective oa = true) :
    (validateAttr path oa).1 ≠ [] ∧ (validateAttr path oa).2 = none := by
  cases oa with
  | none => simp [validateAttr]
  | some a =>
    simp only [attrDefective, Bool.or_eq_true, Bool.not_eq_true'] at h
    have hes : (scoreErrors path a.score ++ tagErrors path a.tag ++
        colorErrors path a.color) ≠ [] := by
      simp only [ne_eq, List.append_eq_nil, not_and]
      intro hs ht
      rcases h with (h | h) | h
      · exact absurd hs.1 (scoreErrors_ne h)
      · exact absurd hs.2 (tagErrors_ne h)
      · exact absurd ht (colorErrors_ne h)
    unfold validateAttr
    rcases hsc : a.score with _ | q <;> rcases htg : a.tag with _ | t <;>
      rcases hcl : a.color with _ | c <;>
      simp only [hsc, htg, hcl] at hes ⊢ <;>
      simp_all [List.isEmpty_eq_true]
    case some.some.some =>
      have hcond : ¬(scoreErrors path (some q) = [] ∧ tagErrors path (some t) = [] ∧
          colorErrors path (some c) = []) := by
        rintro ⟨h1, h2, h3⟩
        exact hes h1 h2 h3
      rw [if_neg hcond]
      refine ⟨?_, rfl⟩
      intro hnil
      simp only [List.append_eq_nil] at hnil
      exact hes hnil.1 hnil.2.1 hnil.2.2

theorem validateAttr_errors_prefixed (path : String) (oa : Option TastingAttrInput) :
    ∀ e ∈ (validateAttr path oa).1, hasPfx e.toList path.toList = true := by
  have hreq : ∀ suffix : String, hasPfx (path ++ suffix).toList path.toList = true :=
    fun suffix => hasPfx_str_append path suffix
  have hsc : ∀ os e, e ∈ scoreErrors path os → hasPfx e.toList path.toList = true := by
    intro os e he
    cases os with
    | none => simp [scoreErrors] at he; subst he; exact hreq _
    | some q =>
      simp only [scoreErrors] at he
      split at he
      · simp at he
      · simp at he; subst he; exact hreq _
  have htg : ∀ ot e, e ∈ tagErrors path ot → hasPfx e.toList path.toList = true := by
    intro ot e he
    cases ot with
    | none => simp [tagErrors] at he; subst he; exact hreq _
    | some t =>
      simp only [tagErrors] at he
      split at he
      · simp at he
      · simp at he; subst he; exact hreq _
  have hcl : ∀ oc e, e ∈ colorErrors path oc → hasPfx e.toList path.toList = true := by
    intro oc e he
    cases oc with
    | none => simp [colorErrors] at he; subst he; exact hreq _
    | some c =>
      simp only [colorErrors] at he
      split at he
      · simp at he
      · simp at he; subst he; exact hreq _
  intro e he
  cases oa with
  | none =>
    simp [validateAttr] at he
    subst he
    exact hreq _
  | some a =>
    unfold validateAttr at he
    rcases h1 : a.score with _ | q <;> rcases h2 : a.tag with _ | t <;>
        rcases h3 : a.color with _ | c <;> simp only [h1, h2, h3] at he
    case some.some.some =>
      split at he
      · simp at he
      · rcases List.mem_append.mp he with h | h
        · rcases List.mem_append.mp h with h | h
          · exact hsc _ e (h1 ▸ h)
          · exact htg _ e (h2 ▸ h)
        · exact hcl _ e (h3 ▸ h)
    all_goals
      rcases List.mem_append.mp he with h | h
      · rcases List.mem_append.mp h with h | h
        · exact hsc _ e (h1 ▸ h)
        · exact htg _ e (h2 ▸ h)
      · exact hcl _ e (h3 ▸ h)

theorem validateTastingNotes_fail (p : TastingNotesInput)
    (h : (validateAttr "fragrance_aroma" p.fragrance_aroma).2 = none ∨
         (validateAttr "flavor" p.flavor).2 = none ∨
         (validateAttr "acidity" p.acidity).2 = none ∨
         (validateAttr "body" p.body).2 = none ∨
         (validateAttr "sweetness" p.sweetness).2 = none) :
    validateTastingNotes p =
      { success := false, data := none,
        errors := some ((validateAttr "fragrance_aroma" p.fragrance_aroma).1 ++
          (validateAttr "flavor" p.flavor).1 ++ (validateAttr "acidity" p.acidity).1 ++
          (validateAttr "body" p.body).1 ++ (validateAttr "sweetness" p.sweetness).1) } := by
  simp only [validateTastingNotes]
  split
  · next heq1 heq2 heq3 heq4 heq5 =>
    rcases h with h | h | h | h | h <;> simp_all
  · rfl

/-- C7: `validateTastingNotes` rejects the whole profile — `success =
false`, no data, and a non-empty list of field-path-qualified errors —
whenever any of the five attributes is missing, or a score is not an
integer in `[1, 5]`, or a tag contains uppercase letters or digits, or a
color is not a valid `#`-prefixed 6-hex-digit code. -/
theorem C7_validator_rejects_defective_profiles (p : TastingNotesInput)
    (h : profileDefective p = true) :
    (validateTastingNotes p).success = false ∧
    (validateTastingNotes p).data = none ∧
    ∃ es, (validateTastingNotes p).errors = some es ∧ es ≠ [] ∧
      ∀ e ∈ es, ∃ fld ∈ ["fragrance_aroma", "flavor", "acidity", "body", "sweetness"],
        hasPfx e.toList fld.toList = true := by
  simp only [profileDefective, Bool.or_eq_true] at h
  have hnone : (validateAttr "fragrance_aroma" p.fragrance_aroma).2 = none ∨
      (validateAttr "flavor" p.flavor).2 = none ∨
      (validateAttr "acidity" p.acidity).2 = none ∨
      (validateAttr "body" p.body).2 = none ∨
      (validateAttr "sweetness" p.sweetness).2 = none := by
    rcases h with (((h | h) | h) | h) | h
    · exact Or.inl (validateAttr_of_defective h).2
    · exact Or.inr (Or.inl (validateAttr_of_defective h).2)
    · exact Or.inr (Or.inr (Or.inl (validateAttr_of_defective h).2))
    · exact Or.inr (Or.inr (Or.inr (Or.inl (validateAttr_of_defective h).2)))
    · exact Or.inr (Or.inr (Or.inr (Or.inr (validateAttr_of_defective h).2)))
  have hfail := validateTastingNotes_fail p hnone
  rw [hfail]
  refine ⟨rfl, rfl, _, rfl, ?_, ?_⟩
  · -- the concatenated error list is non-empty
    simp only [ne_eq, List.append_eq_nil, not_and]
    intro h1 h2
    rcases h with (((h | h) | h) | h) | h
    · exact absurd h1.1.1.1 (validateAttr_of_defective h).1
    · exact absurd h1.1.1.2 (validateAttr_of_defective h).1
    · exact absurd h1.1.2 (validateAttr_of_defective h).1
    · exact absurd h1.2 (validateAttr_of_defective h).1
    · exact absurd h2 (validateAttr_of_defective h).1
  · intro e he
    rcases List.mem_append.mp he with h1 | h1
    · rcases List.mem_append.mp h1 with h2 | h2
      · rcases List.mem_append.mp h2 with h3 | h3
        · rcases List.mem_append.mp h3 with h4 | h4
          · exact ⟨"fragrance_aroma", by simp, validateAttr_errors_prefixed _ _ e h4⟩
          · exact ⟨"flavor", by simp, validateAttr_errors_prefixed _ _ e h4⟩
        · exact ⟨"acidity", by simp, validateAttr_errors_prefixed _ _ e h3⟩
      · exact ⟨"body", by simp, validateAttr_errors_prefixed _ _ e h2⟩
    · exact ⟨"sweetness", by simp, validateAttr_errors_prefixed _ _ e h1⟩

/-- C7 witness: a profile missing its `flavor` attribute is rejected in
full. -/
theorem C7_validator_rejects_defective_profiles_witness :
    profileDefective missingFlavorProfile = true ∧
    ((validateTastingNotes missingFlavorProfile).success = false ∧
     (validateTastingNotes missingFlavorProfile).data = none ∧
     ∃ es, (validateTastingNotes missingFlavorProfile).errors = some es ∧ es ≠ [] ∧
       ∀ e ∈ es, ∃ fld ∈ ["fragrance_aroma", "flavor", "acidity", "body", "sweetness"],
         hasPfx e.toList fld.toList = true) :=
  ⟨by decide, C7_validator_rejects_defective_profiles missingFlavorProfile (by decide)⟩

/-! ### Sanitizer lemmas -/

theorem scoreOk_of_nil {path : String} {q : ℚ} (h : scoreErrors path (some q) = []) :
    scoreIntInRange q = true := by
  by_contra hq
  simp [scoreErrors, Bool.eq_false_iff.mpr hq] at h

theorem tagOk_of_nil {path t} (h : tagErrors path (some t) = []) :
    tagRegexMatch t = true := by
  by_contra ht
  simp [tagErrors, Bool.eq_false_iff.mpr ht] at h

theorem colorOk_of_nil {path c} (h : colorErrors path (some c) = []) :
    hexColorRegexMatch c = true := by
  by_contra hc
  simp [colorErrors, Bool.eq_false_iff.mpr hc] at h

theorem validateAttr_some_inv {path : String} {oa : Option TastingAttrInput}
    {v : TastingAttribute} (h : (validateAttr path oa).2 = some v) :
    oa = some ⟨some v.score, some v.tag, some v.color⟩ ∧ scoreIntInRange v.score = true ∧
    tagRegexMatch v.tag = true ∧ hexColorRegexMatch v.color = true := by
  cases oa with
  | none => simp [validateAttr] at h
  | some a =>
    obtain ⟨os, ot, oc⟩ := a
    rcases os with _ | q <;> rcases ot with _ | t <;> rcases oc with _ | c <;>
      simp only [validateAttr] at h
    case some.some.some =>
      split at h
      · next hcond =>
        simp only [Option.some_inj] at h
        subst h
        simp only [List.isEmpty_eq_true, List.append_eq_nil] at hcond
        exact ⟨rfl, scoreOk_of_nil hcond.1.1, tagOk_of_nil hcond.1.2, colorOk_of_nil hcond.2⟩
      · simp at h
    all_goals simp at h

theorem validateAttr_of_valid (path : String) (q : ℚ) (t c : String)
    (hq : scoreIntInRange q = true) (ht : tagRegexMatch t = true)
    (hc : hexColorRegexMatch c = true) :
    validateAttr path (some ⟨some q, some t, some c⟩) = ([], some ⟨q, t, c⟩) := by
  simp [validateAttr, scoreErrors, tagErrors, colorErrors, hq, ht, hc]

theorem validateTastingNotes_success_inv {p : TastingNotesInput}
    (h : (validateTastingNotes p).success = true) :
    ∃ v1 v2 v3 v4 v5 : TastingAttribute,
      (validateAttr "fragrance_aroma" p.fragrance_aroma).2 = some v1 ∧
      (validateAttr "flavor" p.flavor).2 = some v2 ∧
      (validateAttr "acidity" p.acidity).2 = some v3 ∧
      (validateAttr "body" p.body).2 = some v4 ∧
      (validateAttr "sweetness" p.sweetness).2 = some v5 := by
  simp only [validateTastingNotes] at h
  split at h
  · next h1 h2 h3 h4 h5 => exact ⟨_, _, _, _, _, h1, h2, h3, h4, h5⟩
  · simp at h

theorem validateTastingNotes_success_of (p : TastingNotesInput)
    (v1 v2 v3 v4 v5 : TastingAttribute)
    (h1 : validateAttr "fragrance_aroma" p.fragrance_aroma = ([], some v1))
    (h2 : validateAttr "flavor" p.flavor = ([], some v2))
    (h3 : validateAttr "acidity" p.acidity = ([], some v3))
    (h4 : validateAttr "body" p.body = ([], some v4))
    (h5 : validateAttr "sweetness" p.sweetness = ([], some v5)) :
    validateTastingNotes p =
      { success := true, data := some ⟨v1, v2, v3, v4, v5⟩, errors := none } := by
  simp only [validateTastingNotes, h1, h2, h3, h4, h5]

theorem jsCharLower_idem (c : Char) : jsCharLower (jsCharLower c) = jsCharLower c :=
  jsCharLower_fix (upperAlpha_jsCharLower c)

theorem jsLower_eq_self_of_no_upper {s : String}
    (h : s.toList.all (fun ch => !upperAlpha ch) = true) : jsLower s = s := by
  unfold jsLower
  rw [map_id_of_fix s.toList
    (fun c hc => jsCharLower_fix (by simpa using List.all_eq_true.mp h c hc))]
  rfl

theorem jsLower_idem (s : String) : jsLower (jsLower s) = jsLower s := by
  apply jsLower_eq_self_of_no_upper
  simp only [jsLower, List.all_eq_true]
  intro ch hch
  obtain ⟨x, _, rfl⟩ := List.mem_map.mp hch
  simp [upperAlpha_jsCharLower]

theorem tagMatch_head_last {l : List Char} (h : tagRegexMatchL l = true) :
    (∀ c ∈ l.head?, lowerAlpha c = true) ∧ (∀ c ∈ l.getLast?, lowerAlpha c = true) := by
  cases l with
  | nil => simp [tagRegexMatchL] at h
  | cons c0 t =>
    cases t with
    | nil =>
      simp only [tagRegexMatchL] at h
      exact ⟨fun c hc => by simp at hc; subst hc; exact h,
        fun c hc => by simp at hc; subst hc; exact h⟩
    | cons c2 t2 =>
      simp only [tagRegexMatchL, Bool.and_eq_true] at h
      constructor
      · intro c hc
        simp at hc
        subst hc
        exact h.1
      · intro c hc
        obtain ⟨d, t3, hrev, hd⟩ := tagTail_last h.2
        have hrev2 : (c0 :: c2 :: t2).reverse = d :: (t3 ++ [c0]) := by
          simp [hrev]
        rw [← List.head?_reverse, hrev2] at hc
        simp at hc
        subst hc
        exact hd

theorem tag_fix {t : String} (ht : tagRegexMatch t = true) :
    jsLower t = t ∧ jsTrim t = t ∧ t ≠ "" := by
  have hchars := tagRegexMatchL_chars (l := t.toList) ht
  have hlow : jsLower t = t := by
    unfold jsLower
    rw [map_id_of_fix t.toList (fun c hc => jsCharLower_fix_of_tagCharMid (hchars c hc))]
    rfl
  have hhl := tagMatch_head_last (l := t.toList) ht
  have htrim : jsTrim t = t := by
    apply jsTrim_eq_self
    · intro c hc
      exact wsChar_false_of_lowerAlpha (hhl.1 c hc)
    · intro c hc
      exact wsChar_false_of_lowerAlpha (hhl.2 c hc)
  refine ⟨hlow, htrim, ?_⟩
  intro hempty
  rw [hempty] at ht
  simp [tagRegexMatch, tagRegexMatchL] at ht

theorem hexColor_inv {s : String} (h : hexColorRegexMatch s = true) :
    ∃ rest, s.toList = '#' :: rest ∧ rest.length = 6 ∧ rest.all hexDigitChar = true := by
  unfold hexColorRegexMatch at h
  cases hl : s.toList with
  | nil => rw [hl] at h; simp [hexColorRegexMatchL] at h
  | cons c rest =>
    rw [hl] at h
    simp only [hexColorRegexMatchL, Bool.and_eq_true, beq_iff_eq] at h
    exact ⟨rest, by rw [h.1.1], by simpa using h.1.2, h.2⟩

theorem color_fix {s : String} (hs : hexColorRegexMatch s = true) :
    ensureHash (jsLower (jsTrim s)) = jsLower s ∧
    hexColorRegexMatch (jsLower s) = true ∧ s ≠ "" := by
  obtain ⟨rest, hl, hlen, hhex⟩ := hexColor_inv hs
  have htrim : jsTrim s = s := by
    apply jsTrim_eq_self
    · intro c hc
      rw [hl] at hc
      simp at hc
      subst hc
      decide
    · intro c hc
      have hmem : c ∈ s.toList := by
        cases hg : s.toList.getLast? with
        | none => rw [hg] at hc; simp at hc
        | some d =>
          rw [hg] at hc
          simp at hc
          subst hc
          exact List.mem_of_mem_getLast? hg
      rw [hl] at hmem
      rcases List.mem_cons.mp hmem with rfl | hmem2
      · decide
      · exact wsChar_false_of_hexDigit (List.all_eq_true.mp hhex c hmem2)
  have hlowlist : (jsLower s).toList = '#' :: rest.map jsCharLower := by
    simp only [jsLower, hl, List.map_cons]
    have h35 : jsCharLower '#' = '#' := by decide
    rw [h35]
    rfl
  have hstart : startsWithHash (jsLower s) = true := by
    unfold startsWithHash
    rw [hlowlist]
    rfl
  have hvalid : hexColorRegexMatch (jsLower s) = true := by
    unfold hexColorRegexMatch
    rw [hlowlist]
    simp only [hexColorRegexMatchL, Bool.and_eq_true, beq_iff_eq]
    refine ⟨⟨by trivial, by simpa using hlen⟩, ?_⟩
    rw [List.all_map]
    rw [List.all_eq_true] at hhex ⊢
    exact fun c hc => hexDigitChar_jsCharLower (hhex c hc)
  refine ⟨?_, hvalid, ?_⟩
  · rw [htrim, ensureHash, if_pos hstart]
  · intro hempty
    rw [hempty] at hl
    simp at hl

theorem jsRound_fix {q : ℚ} (hq : scoreIntInRange q = true) :
    ((jsRound q : ℤ) : ℚ) = q ∧ q ≠ 0 := by
  simp only [scoreIntInRange, Bool.and_eq_true, beq_iff_eq, decide_eq_true_eq] at hq
  obtain ⟨⟨hden, h1⟩, h5⟩ := hq
  have hr : jsRound q = q.num := by
    simp [jsRound, hden]
    have h2 : 2 * q.num + 1 = 1 + q.num * 2 := by ring
    rw [h2, Int.add_mul_ediv_right 1 q.num (by norm_num : (2:ℤ) ≠ 0)]
    norm_num
  refine ⟨?_, ?_⟩
  · rw [hr]
    exact Rat.coe_int_num_of_den_eq_one hden
  · intro h0
    rw [h0] at h1
    norm_num at h1

theorem sanitizeAttr_valid {q : ℚ} {t c : String} (hq : scoreIntInRange q = true)
    (ht : tagRegexMatch t = true) (hc : hexColorRegexMatch c = true) :
    sanitizeAttr ⟨some q, some t, some c⟩ = ⟨some q, some t, some (jsLower c)⟩ := by
  obtain ⟨hrq, hq0⟩ := jsRound_fix hq
  obtain ⟨hlt, htt, hte⟩ := tag_fix ht
  obtain ⟨hec, _, hce⟩ := color_fix hc
  simp only [sanitizeAttr, if_pos hq0, if_pos hte, if_pos hce, hrq, hlt, htt, hec]

/-- C8 (amended): on every profile that validates successfully, sanitize
lowercases the colors and changes nothing else; the sanitized profile
validates successfully again with the sanitized attributes as data;
sanitize is idempotent; and when the colors are already lowercase the
sanitized profile is structurally equal to the original, so
sanitize-then-validate returns the original data. -/
theorem C8_sanitize_validate_roundtrip (p : TastingNotesInput)
    (h : (validateTastingNotes p).success = true) :
    sanitizeTastingNotes p = mapColorsLower p ∧
    (validateTastingNotes (sanitizeTastingNotes p)).success = true ∧
    sanitizeTastingNotes (sanitizeTastingNotes p) = sanitizeTastingNotes p ∧
    (colorsAlreadyLower p = true →
      sanitizeTastingNotes p = p ∧
      validateTastingNotes (sanitizeTastingNotes p) = validateTastingNotes p) := by
  obtain ⟨v1, v2, v3, v4, v5, h1, h2, h3, h4, h5⟩ := validateTastingNotes_success_inv h
  obtain ⟨e1, hq1, ht1, hc1⟩ := validateAttr_some_inv h1
  obtain ⟨e2, hq2, ht2, hc2⟩ := validateAttr_some_inv h2
  obtain ⟨e3, hq3, ht3, hc3⟩ := validateAttr_some_inv h3
  obtain ⟨e4, hq4, ht4, hc4⟩ := validateAttr_some_inv h4
  obtain ⟨e5, hq5, ht5, hc5⟩ := validateAttr_some_inv h5
  obtain ⟨f1, f2, f3, f4, f5⟩ := p
  simp only at e1 e2 e3 e4 e5
  subst e1 e2 e3 e4 e5
  have hsan : sanitizeTastingNotes
      (⟨some ⟨some v1.score, some v1.tag, some v1.color⟩,
        some ⟨some v2.score, some v2.tag, some v2.color⟩,
        some ⟨some v3.score, some v3.tag, some v3.color⟩,
        some ⟨some v4.score, some v4.tag, some v4.color⟩,
        some ⟨some v5.score, some v5.tag, some v5.color⟩⟩ : TastingNotesInput) =
      ⟨some ⟨some v1.score, some v1.tag, some (jsLower v1.color)⟩,
       some ⟨some v2.score, some v2.tag, some (jsLower v2.color)⟩,
       some ⟨some v3.score, some v3.tag, some (jsLower v3.color)⟩,
       some ⟨some v4.score, some v4.tag, some (jsLower v4.color)⟩,
       some ⟨some v5.score, some v5.tag, some (jsLower v5.color)⟩⟩ := by
    simp only [sanitizeTastingNotes, Option.map_some']
    rw [sanitizeAttr_valid hq1 ht1 hc1, sanitizeAttr_valid hq2 ht2 hc2,
      sanitizeAttr_valid hq3 ht3 hc3, sanitizeAttr_valid hq4 ht4 hc4,
      sanitizeAttr_valid hq5 ht5 hc5]
  have hmap : mapColorsLower
      (⟨some ⟨some v1.score, some v1.tag, some v1.color⟩,
        some ⟨some v2.score, some v2.tag, some v2.color⟩,
        some ⟨some v3.score, some v3.tag, some v3.color⟩,
        some ⟨some v4.score, some v4.tag, some v4.color⟩,
        some ⟨some v5.score, some v5.tag, some v5.color⟩⟩ : TastingNotesInput) =
      ⟨some ⟨some v1.score, some v1.tag, some (jsLower v1.color)⟩,
       some ⟨some v2.score, some v2.tag, some (jsLower v2.color)⟩,
       some ⟨some v3.score, some v3.tag, some (jsLower v3.color)⟩,
       some ⟨some v4.score, some v4.tag, some (jsLower v4.color)⟩,
       some ⟨some v5.score, some v5.tag, some (jsLower v5.color)⟩⟩ := by
    simp only [mapColorsLower, Option.map_some', lowerAttrColor]
  have hsan2 : sanitizeTastingNotes
      (⟨some ⟨some v1.score, some v1.tag, some (jsLower v1.color)⟩,
        some ⟨some v2.score, some v2.tag, some (jsLower v2.color)⟩,
        some ⟨some v3.score, some v3.tag, some (jsLower v3.color)⟩,
        some ⟨some v4.score, some v4.tag, some (jsLower v4.color)⟩,
        some ⟨some v5.score, some v5.tag, some (jsLower v5.color)⟩⟩ : TastingNotesInput) =
      ⟨some ⟨some v1.score, some v1.tag, some (jsLower v1.color)⟩,
       some ⟨some v2.score, some v2.tag, some (jsLower v2.color)⟩,
       some ⟨some v3.score, some v3.tag, some (jsLower v3.color)⟩,
       some ⟨some v4.score, some v4.tag, some (jsLower v4.color)⟩,
       some ⟨some v5.score, some v5.tag, some (jsLower v5.color)⟩⟩ := by
    simp only [sanitizeTastingNotes, Option.map_some']
    rw [sanitizeAttr_valid hq1 ht1 (color_fix hc1).2.1,
      sanitizeAttr_valid hq2 ht2 (color_fix hc2).2.1,
      sanitizeAttr_valid hq3 ht3 (color_fix hc3).2.1,
      sanitizeAttr_valid hq4 ht4 (color_fix hc4).2.1,
      sanitizeAttr_valid hq5 ht5 (color_fix hc5).2.1,
      jsLower_idem, jsLower_idem, jsLower_idem, jsLower_idem, jsLower_idem]
  have hval2 := validateTastingNotes_success_of
    (⟨some ⟨some v1.score, some v1.tag, some (jsLower v1.color)⟩,
      some ⟨some v2.score, some v2.tag, some (jsLower v2.color)⟩,
      some ⟨some v3.score, some v3.tag, some (jsLower v3.color)⟩,
      some ⟨some v4.score, some v4.tag, some (jsLower v4.color)⟩,
      some ⟨some v5.score, some v5.tag, some (jsLower v5.color)⟩⟩ : TastingNotesInput)
    ⟨v1.score, v1.tag, jsLower v1.color⟩ ⟨v2.score, v2.tag, jsLower v2.color⟩
    ⟨v3.score, v3.tag, jsLower v3.color⟩ ⟨v4.score, v4.tag, jsLower v4.color⟩
    ⟨v5.score, v5.tag, jsLower v5.color⟩
    (validateAttr_of_valid _ _ _ _ hq1 ht1 (color_fix hc1).2.1)
    (validateAttr_of_valid _ _ _ _ hq2 ht2 (color_fix hc2).2.1)
    (validateAttr_of_valid _ _ _ _ hq3 ht3 (color_fix hc3).2.1)
    (validateAttr_of_valid _ _ _ _ hq4 ht4 (color_fix hc4).2.1)
    (validateAttr_of_valid _ _ _ _ hq5 ht5 (color_fix hc5).2.1)
  refine ⟨by rw [hsan, hmap], ?_, ?_, ?_⟩
  · rw [hsan, hval2]
  · rw [hsan, hsan2]
  · intro hlowall
    simp only [colorsAlreadyLower, attrColorLower, Bool.and_eq_true] at hlowall
    obtain ⟨⟨⟨⟨hw1, hw2⟩, hw3⟩, hw4⟩, hw5⟩ := hlowall
    have hfix : sanitizeTastingNotes
        (⟨some ⟨some v1.score, some v1.tag, some v1.color⟩,
          some ⟨some v2.score, some v2.tag, some v2.color⟩,
          some ⟨some v3.score, some v3.tag, some v3.color⟩,
          some ⟨some v4.score, some v4.tag, some v4.color⟩,
          some ⟨some v5.score, some v5.tag, some v5.color⟩⟩ : TastingNotesInput) =
        ⟨some ⟨some v1.score, some v1.tag, some v1.color⟩,
         some ⟨some v2.score, some v2.tag, some v2.color⟩,
         some ⟨some v3.score, some v3.tag, some v3.color⟩,
         some ⟨some v4.score, some v4.tag, some v4.color⟩,
         some ⟨some v5.score, some v5.tag, some v5.color⟩⟩ := by
      rw [hsan, jsLower_eq_self_of_no_upper hw1, jsLower_eq_self_of_no_upper hw2,
        jsLower_eq_self_of_no_upper hw3, jsLower_eq_self_of_no_upper hw4,
        jsLower_eq_self_of_no_upper hw5]
    exact ⟨hfix, by rw [hfix]⟩

/-- C8 witness: the amended round-trip at a concrete valid profile whose
colors are lowercase. -/
theorem C8_sanitize_validate_roundtrip_witness :
    (validateTastingNotes lowerColorProfile).success = true ∧
    (sanitizeTastingNotes lowerColorProfile = mapColorsLower lowerColorProfile ∧
     (validateTastingNotes (sanitizeTastingNotes lowerColorProfile)).success = true ∧
     sanitizeTastingNotes (sanitizeTastingNotes lowerColorProfile) =
       sanitizeTastingNotes lowerColorProfile ∧
     (colorsAlreadyLower lowerColorProfile = true →
       sanitizeTastingNotes lowerColorProfile = lowerColorProfile ∧
       validateTastingNotes (sanitizeTastingNotes lowerColorProfile) =
         validateTastingNotes lowerColorProfile)) :=
  ⟨by decide, C8_sanitize_validate_roundtrip lowerColorProfile (by decide)⟩

/-! ### Model-fallback lemmas -/

theorem getModel_setModel_self {ms : List ModelConfig} {j : ℕ} {m : ModelConfig}
    (h : j < ms.length) : getModel (setModel ms j m) j = m := by
  simp [getModel, setModel, List.getD, List.getElem?_set_self, h]

theorem getModel_setModel_ne {ms : List ModelConfig} {i j : ℕ} {m : ModelConfig}
    (h : i ≠ j) : getModel (setModel ms i m) j = getModel ms j := by
  simp [getModel, setModel, List.getD, List.getElem?_set_ne h]

theorem getModel_setZero_count (ms : List ModelConfig) (m0 : ModelConfig) :
    (getModel (setModel ms 0 { m0 with failureCount := 0 }) 0).failureCount = 0 := by
  cases ms with
  | nil => rfl
  | cons a t => rfl

theorem scanModels_none {now : ℕ} : ∀ (js : List ℕ) (ms : List ModelConfig),
    (scanModels now js ms).1 = none →
    (scanModels now js ms).2 = ms ∧ ∀ j ∈ js, qualifiesSpec ms now j = false := by
  intro js
  induction js with
  | nil => intro ms _; exact ⟨rfl, by simp⟩
  | cons j rest ih =>
    intro ms h
    by_cases hj : j = 0
    · subst hj
      by_cases hcd : now - (getModel ms 0).lastFailureTime < cooldownPeriodMs
      · rw [scanModels, if_pos rfl, if_pos hcd] at h ⊢
        obtain ⟨hms, hall⟩ := ih ms h
        refine ⟨hms, ?_⟩
        intro j hjm
        rcases List.mem_cons.mp hjm with rfl | hjr
        · simp [qualifiesSpec]
          omega
        · exact hall j hjr
      · exfalso
        rw [scanModels, if_pos rfl, if_neg hcd] at h
        rw [if_pos] at h
        · exact Option.noConfusion h
        · rw [getModel_setZero_count]
          decide
    · by_cases hth : (getModel ms j).failureCount < modelFailureThreshold
      · exfalso
        rw [scanModels, if_neg hj, if_pos hth] at h
        exact Option.noConfusion h
      · rw [scanModels, if_neg hj, if_neg hth] at h ⊢
        obtain ⟨hms, hall⟩ := ih ms h
        refine ⟨hms, ?_⟩
        intro i him
        rcases List.mem_cons.mp him with rfl | hir
        · simp [qualifiesSpec, hj]
          omega
        · exact hall i hir

theorem scanModels_find {now : ℕ} : ∀ (js : List ℕ) (ms : List ModelConfig) (j : ℕ),
    js.find? (qualifiesSpec ms now) = some j →
    scanModels now js ms =
      (some j, if j = 0 then setModel ms 0 { getModel ms 0 with failureCount := 0 } else ms) := by
  intro js
  induction js with
  | nil => intro ms j h; simp at h
  | cons j2 rest ih =>
    intro ms j h
    rw [List.find?_cons] at h
    by_cases hq : qualifiesSpec ms now j2 = true
    · rw [hq] at h
      simp only [Option.some_inj] at h
      subst h
      by_cases hj : j2 = 0
      · subst hj
        simp [qualifiesSpec] at hq
        rw [scanModels, if_pos rfl, if_neg (by omega)]
        rw [if_pos (by rw [getModel_setZero_count]; decide)]
        simp
      · simp only [qualifiesSpec, if_neg hj, decide_eq_true_eq] at hq
        rw [scanModels, if_neg hj, if_pos hq]
        simp [hj]
    · rw [Bool.eq_false_iff.mpr hq] at h
      have hrest := ih ms j h
      by_cases hj : j2 = 0
      · subst hj
        simp [qualifiesSpec] at hq
        rw [scanModels, if_pos rfl, if_pos (by omega)]
        exact hrest
      · simp only [qualifiesSpec, if_neg hj, decide_eq_true_eq, not_lt] at hq
        rw [scanModels, if_neg hj, if_neg (by omega)]
        exact hrest

theorem zero_mem_wrapIdxs {cur len : ℕ} (hcur : cur < len) (hne : cur ≠ 0) :
    0 ∈ wrapIdxs cur len := by
  unfold wrapIdxs
  apply List.mem_map.mpr
  refine ⟨len - 1 - cur, ?_, ?_⟩
  · simp only [List.mem_range]
    omega
  · have : cur + 1 + (len - 1 - cur) = len := by omega
    rw [this]
    exact Nat.mod_self len

theorem scanModels_of_find_none {now : ℕ} : ∀ (js : List ℕ) (ms : List ModelConfig),
    js.find? (qualifiesSpec ms now) = none → scanModels now js ms = (none, ms) := by
  intro js
  induction js with
  | nil => intro ms _; rfl
  | cons j2 rest ih =>
    intro ms h
    rw [List.find?_cons] at h
    by_cases hq : qualifiesSpec ms now j2 = true
    · rw [hq] at h
      exact Option.noConfusion h
    · rw [Bool.eq_false_iff.mpr hq] at h
      by_cases hj : j2 = 0
      · subst hj
        simp [qualifiesSpec] at hq
        rw [scanModels, if_pos rfl, if_pos (by omega)]
        exact ih ms h
      · simp [qualifiesSpec, hj] at hq
        rw [scanModels, if_neg hj, if_neg (by omega)]
        exact ih ms h

theorem wrapIdxs_zero_cur_ne {cur len : ℕ} (h : 0 ∈ wrapIdxs cur len) : cur ≠ 0 := by
  intro hc
  subst hc
  obtain ⟨i, hi, he⟩ := List.mem_map.mp h
  simp only [List.mem_range] at hi
  rw [Nat.mod_eq_of_lt (by omega)] at he
  omega

/-- C4: a model-blocked error increments the current model's failure count
and records the failure instant; below the threshold of 2 the client keeps
the current model; at the threshold it walks the wrapped forward index
order and switches to the first qualifying model — the primary qualifying
exactly when its 10-minute cooldown has elapsed, whereupon its failure
count is reset, any other model when its failure count is under the
threshold; and when no model qualifies the caller is blocked precisely
until the primary's cooldown expires and the client resets to the primary
model with failure count 0. -/
theorem C4_model_blocked_fallback (st : ClientState) (now : ℕ)
    (hcur : st.currentModelIndex < st.models.length)
    (hlf0 : (getModel st.models 0).lastFailureTime ≤ now) :
    (getModel (switchToNextModel st now).2.models st.currentModelIndex).failureCount
        = (getModel st.models st.currentModelIndex).failureCount + 1 ∧
    (getModel (switchToNextModel st now).2.models st.currentModelIndex).lastFailureTime
        = now ∧
    ((getModel st.models st.currentModelIndex).failureCount + 1 < modelFailureThreshold →
      switchToNextModel st now = (true, { st with models := bumpModels st now })) ∧
    (modelFailureThreshold ≤ (getModel st.models st.currentModelIndex).failureCount + 1 →
      (∀ j, (wrapIdxs st.currentModelIndex st.models.length).find?
            (qualifiesSpec (bumpModels st now) now) = some j →
        switchToNextModel st now = (true,
          { models := if j = 0 then
              setModel (bumpModels st now) 0
                { getModel (bumpModels st now) 0 with failureCount := 0 }
            else bumpModels st now,
            currentModelIndex := j })) ∧
      ((wrapIdxs st.currentModelIndex st.models.length).find?
          (qualifiesSpec (bumpModels st now) now) = none →
        (switchToNextModel st now).1 = false ∧
        0 < (handleModelFailure st now).2 ∧
        now + (handleModelFailure st now).2 =
          (getModel (bumpModels st now) 0).lastFailureTime + cooldownPeriodMs ∧
        (handleModelFailure st now).1 =
          { models := setModel (bumpModels st now) 0
              { getModel (bumpModels st now) 0 with failureCount := 0 },
            currentModelIndex := 0 })) := by
  have hblen : (bumpModels st now).length = st.models.length := by
    simp [bumpModels, setModel]
  have hbcur : getModel (bumpModels st now) st.currentModelIndex =
      { getModel st.models st.currentModelIndex with
        failureCount := (getModel st.models st.currentModelIndex).failureCount + 1
        lastFailureTime := now } :=
    getModel_setModel_self hcur
  by_cases hth : modelFailureThreshold ≤
      (getModel (bumpModels st now) st.currentModelIndex).failureCount
  · cases hfind : (wrapIdxs st.currentModelIndex st.models.length).find?
        (qualifiesSpec (bumpModels st now) now) with
    | some j =>
      have hfind2 : (wrapIdxs st.currentModelIndex (bumpModels st now).length).find?
          (qualifiesSpec (bumpModels st now) now) = some j := by
        rw [hblen]; exact hfind
      have hscan := scanModels_find (wrapIdxs st.currentModelIndex
        (bumpModels st now).length) (bumpModels st now) j hfind2
      have hsw : switchToNextModel st now = (true,
          { models := if j = 0 then
              setModel (bumpModels st now) 0
                { getModel (bumpModels st now) 0 with failureCount := 0 }
            else bumpModels st now,
            currentModelIndex := j }) := by
        simp only [switchToNextModel]
        rw [if_pos hth, hscan]
      refine ⟨?_, ?_, ?_, fun _ => ⟨?_, ?_⟩⟩
      · rw [hsw]
        by_cases hj0 : j = 0
        · subst hj0
          have hcne : st.currentModelIndex ≠ 0 :=
            wrapIdxs_zero_cur_ne (List.mem_of_find?_eq_some hfind)
          rw [if_pos rfl]
          rw [getModel_setModel_ne (fun he => hcne he.symm), hbcur]
        · simp only [if_neg hj0]
          rw [hbcur]
      · rw [hsw]
        by_cases hj0 : j = 0
        · subst hj0
          have hcne : st.currentModelIndex ≠ 0 :=
            wrapIdxs_zero_cur_ne (List.mem_of_find?_eq_some hfind)
          rw [if_pos rfl]
          rw [getModel_setModel_ne (fun he => hcne he.symm), hbcur]
        · simp only [if_neg hj0]
          rw [hbcur]
      · intro hlt
        rw [hbcur] at hth
        simp only at hth
        omega
      · intro j2 hf2
        have hj : j2 = j := (Option.some_inj.mp hf2).symm
        subst hj
        exact hsw
      · intro hnone
        exact Option.noConfusion hnone
    | none =>
      have hfind2 : (wrapIdxs st.currentModelIndex (bumpModels st now).length).find?
          (qualifiesSpec (bumpModels st now) now) = none := by
        rw [hblen]; exact hfind
      have hscan := scanModels_of_find_none (wrapIdxs st.currentModelIndex
        (bumpModels st now).length) (bumpModels st now) hfind2
      have hsw : switchToNextModel st now = (false,
          { models := bumpModels st now, currentModelIndex := st.currentModelIndex }) := by
        simp only [switchToNextModel]
        rw [if_pos hth, hscan]
      have hlfb : (getModel (bumpModels st now) 0).lastFailureTime ≤ now ∧
          now - (getModel (bumpModels st now) 0).lastFailureTime < cooldownPeriodMs := by
        by_cases hc0 : st.currentModelIndex = 0
        · rw [hc0] at hbcur
          rw [hbcur]
          simp [cooldownPeriodMs]
        · have hg0 : getModel (bumpModels st now) 0 = getModel st.models 0 :=
            getModel_setModel_ne hc0
          have hq0 := List.find?_eq_none.mp hfind 0 (zero_mem_wrapIdxs hcur hc0)
          simp [qualifiesSpec] at hq0
          rw [hg0] at hq0 ⊢
          exact ⟨hlf0, hq0⟩
      have hhandle : handleModelFailure st now =
          ({ models := setModel (bumpModels st now) 0
              { getModel (bumpModels st now) 0 with failureCount := 0 }
             currentModelIndex := 0 },
            cooldownPeriodMs - (now - (getModel (bumpModels st now) 0).lastFailureTime)) := by
        simp only [handleModelFailure]
        rw [hsw]
        simp only
        rw [if_pos (by omega)]
      refine ⟨?_, ?_, ?_, fun _ => ⟨?_, ?_⟩⟩
      · rw [hsw, hbcur]
      · rw [hsw, hbcur]
      · intro hlt
        rw [hbcur] at hth
        simp only at hth
        omega
      · intro j2 hf2
        exact Option.noConfusion hf2
      · intro _
        refine ⟨by rw [hsw], ?_, ?_, by rw [hhandle]⟩
        · rw [hhandle]
          simp only
          omega
        · rw [hhandle]
          simp only
          omega
  · have hsw : switchToNextModel st now = (true, { st with models := bumpModels st now }) := by
      simp only [switchToNextModel]
      rw [if_neg hth]
    refine ⟨?_, ?_, fun _ => hsw, ?_⟩
    · rw [hsw]
      simp only
      rw [hbcur]
    · rw [hsw]
      simp only
      rw [hbcur]
    · intro hge
      rw [hbcur] at hth
      simp only at hth
      omega

/-- C4 witness: the fallback behaviour at a fresh four-model client state
and a concrete instant. -/
theorem C4_model_blocked_fallback_witness :
    (fallbackDemoState.currentModelIndex < fallbackDemoState.models.length ∧
     (getModel fallbackDemoState.models 0).lastFailureTime ≤ 1000) ∧
    ((getModel (switchToNextModel fallbackDemoState 1000).2.models
        fallbackDemoState.currentModelIndex).failureCount
        = (getModel fallbackDemoState.models
            fallbackDemoState.currentModelIndex).failureCount + 1 ∧
    (getModel (switchToNextModel fallbackDemoState 1000).2.models
        fallbackDemoState.currentModelIndex).lastFailureTime = 1000 ∧
    ((getModel fallbackDemoState.models
        fallbackDemoState.currentModelIndex).failureCount + 1 < modelFailureThreshold →
      switchToNextModel fallbackDemoState 1000 =
        (true, { fallbackDemoState with models := bumpModels fallbackDemoState 1000 })) ∧
    (modelFailureThreshold ≤ (getModel fallbackDemoState.models
        fallbackDemoState.currentModelIndex).failureCount + 1 →
      (∀ j, (wrapIdxs fallbackDemoState.currentModelIndex
            fallbackDemoState.models.length).find?
            (qualifiesSpec (bumpModels fallbackDemoState 1000) 1000) = some j →
        switchToNextModel fallbackDemoState 1000 = (true,
          { models := if j = 0 then
              setModel (bumpModels fallbackDemoState 1000) 0
                { getModel (bumpModels fallbackDemoState 1000) 0 with failureCount := 0 }
            else bumpModels fallbackDemoState 1000,
            currentModelIndex := j })) ∧
      ((wrapIdxs fallbackDemoState.currentModelIndex
          fallbackDemoState.models.length).find?
          (qualifiesSpec (bumpModels fallbackDemoState 1000) 1000) = none →
        (switchToNextModel fallbackDemoState 1000).1 = false ∧
        0 < (handleModelFailure fallbackDemoState 1000).2 ∧
        1000 + (handleModelFailure fallbackDemoState 1000).2 =
          (getModel (bumpModels fallbackDemoState 1000) 0).lastFailureTime
            + cooldownPeriodMs ∧
        (handleModelFailure fallbackDemoState 1000).1 =
          { models := setModel (bumpModels fallbackDemoState 1000) 0
              { getModel (bumpModels fallbackDemoState 1000) 0 with failureCount := 0 }
            currentModelIndex := 0 }))) :=
  ⟨⟨by decide, by decide⟩,
    C4_model_blocked_fallback fallbackDemoState 1000 (by decide) (by decide)⟩

/-! ### Reconciliation-engine lemmas -/

theorem insertFold_getElem? (us : List String) (detail : String → Option NewProductData)
    (src : String) (now : ℕ) (d : List CatalogRow) (i : ℕ) (hi : i < d.length) :
    (us.foldl (fun d u =>
      match detail u with
      | some nd => d ++ [mkInsertRow src u nd now]
      | none => d) d)[i]? = d[i]? := by
  induction us generalizing d with
  | nil => rfl
  | cons u rest ih =>
    simp only [List.foldl_cons]
    cases hd : detail u with
    | none => exact ih d hi
    | some nd =>
      rw [ih (d ++ [mkInsertRow src u nd now]) (by simp; omega)]
      exact List.getElem?_append_left hi

theorem priceFold_getElem? (us : List String) (src : String) (pm : String → Option ℚ)
    (d : List CatalogRow) (i : ℕ) :
    (us.foldl (fun d u =>
      d.map (fun r =>
        if r.link == u && r.source == src then
          { r with stocked := true, cost_lb := pm u }
        else r)) d)[i]? =
      d[i]?.map (fun r => us.foldl (fun r u =>
        if r.link == u && r.source == src then
          { r with stocked := true, cost_lb := pm u }
        else r) r) := by
  induction us generalizing d with
  | nil => cases hd : d[i]? <;> simp [hd]
  | cons u rest ih =>
    simp only [List.foldl_cons]
    rw [ih]
    rw [List.getElem?_map]
    cases hd : d[i]? <;> simp [hd]

theorem priceFold_row_not_mem (us : List String) (src : String) (pm : String → Option ℚ)
    (r : CatalogRow) (h : r.link ∉ us) :
    us.foldl (fun r u =>
      if r.link == u && r.source == src then
        { r with stocked := true, cost_lb := pm u }
      else r) r = r := by
  induction us with
  | nil => rfl
  | cons u rest ih =>
    simp only [List.foldl_cons]
    have hu : (r.link == u) = false := by
      simp only [beq_eq_false_iff_ne, ne_eq]
      intro he
      exact h (by simp [he])
    rw [hu]
    simp only [Bool.false_and, Bool.false_eq_true, if_false]
    exact ih (fun hm => h (by simp [hm]))

theorem priceFold_row_mem (us : List String) (src : String) (pm : String → Option ℚ) :
    ∀ r : CatalogRow, r.source = src → r.link ∈ us →
    us.foldl (fun r u =>
      if r.link == u && r.source == src then
        { r with stocked := true, cost_lb := pm u }
      else r) r = { r with stocked := true, cost_lb := pm r.link } := by
  induction us with
  | nil => intro r _ hmem; cases hmem
  | cons u rest ih =>
    intro r hsrc hmem
    simp only [List.foldl_cons]
    by_cases hu : r.link = u
    · subst hu
      rw [if_pos (by simp [hsrc])]
      by_cases hrest : r.link ∈ rest
      · have := ih { r with stocked := true, cost_lb := pm r.link } hsrc hrest
        simpa using this
      · have := priceFold_row_not_mem rest src pm
          { r with stocked := true, cost_lb := pm r.link } hrest
        simpa using this
    · rw [if_neg (by simp [hu])]
      rcases List.mem_cons.mp hmem with he | hm
      · exact absurd he hu
      · exact ih r hsrc hm

theorem checkExistingUrls_subset {db : List CatalogRow} {urls : List String} {u : String}
    (h : u ∈ checkExistingUrls db urls) : u ∈ urls := by
  unfold checkExistingUrls at h
  exact (List.mem_filter.mp ((List.mem_filter.mp h).1)).1

theorem checkExistingUrls_not_known {db : List CatalogRow} {urls : List String} {u : String}
    (h : u ∈ checkExistingUrls db urls) : ∀ r ∈ db, r.link ≠ u := by
  unfold checkExistingUrls at h
  have h1 := List.mem_filter.mp h
  intro r hr he
  have hfil : u ∈ urls.filter (fun u => !excludedByCheckFilter u) := h1.1
  have hcontains : ((db.filter (fun r =>
      (urls.filter (fun u => !excludedByCheckFilter u)).contains r.link)).map (·.link)).contains u
      = true := by
    apply List.elem_eq_true_of_mem
    simp only [List.mem_map]
    refine ⟨r, List.mem_filter.mpr ⟨hr, ?_⟩, he⟩
    apply List.elem_eq_true_of_mem
    rw [he]
    exact hfil
  have := h1.2
  simp only [hcontains] at this
  simp at this

theorem contains_eq_false_of_not_mem {l : List String} {a : String} (h : a ∉ l) :
    l.contains a = false := by
  cases hc : l.contains a
  · rfl
  · exact absurd (List.mem_of_elem_eq_true hc) h

theorem priceFold_length (us : List String) (src : String) (pm : String → Option ℚ)
    (d : List CatalogRow) :
    (us.foldl (fun d u =>
      d.map (fun r =>
        if r.link == u && r.source == src then
          { r with stocked := true, cost_lb := pm u }
        else r)) d).length = d.length := by
  induction us generalizing d with
  | nil => rfl
  | cons u rest ih =>
    simp only [List.foldl_cons]
    rw [ih]
    exact List.length_map _ _

theorem getElem?_lt_length {l : List CatalogRow} {i : ℕ} {r : CatalogRow}
    (h : l[i]? = some r) : i < l.length := by
  by_contra hc
  push_neg at hc
  rw [List.getElem?_eq_none hc] at h
  exact Option.noConfusion h

/-- C2 (amended): for every url previously marked stocked for a source
that is absent from the collected listing, provided the
exclusion-filtered URL list is non-empty (the raw listing alone does not
suffice: an all-excluded listing aborts the run), reconciliation sets
that row's stocked flag to false with `unstocked_date` and `last_updated`
set to now, changes nothing else on the row, and never hands that url to
detail fetch or enrichment. -/
theorem C2_absent_url_unstocked (src : String) (collected : List ProductData)
    (db : List CatalogRow) (detail : String → Option NewProductData) (now : ℕ)
    (i : ℕ) (r0 : CatalogRow)
    (hi : db[i]? = some r0) (hsrc : r0.source = src) (hstk : r0.stocked = true)
    (habs : r0.link ∉ collected.map (·.url))
    (hfil : (collected.map (·.url)).filter (fun u => !excludedByUpdateFilter u) ≠ []) :
    (updateDatabase src collected db detail now).db[i]? =
      some { r0 with
        stocked := false
        unstocked_date := some now
        last_updated := some now } ∧
    r0.link ∉ (updateDatabase src collected db detail now).processedNewUrls := by
  have hfilF : ((collected.map (·.url)).filter (fun u => !excludedByUpdateFilter u)).isEmpty
      = false := by
    simp [hfil]
  have hnotin : r0.link ∉ (collected.map (·.url)).filter (fun u => !excludedByUpdateFilter u) :=
    fun hm => habs (List.mem_filter.mp hm).1
  have hcNLS : (((db.filter (fun r => r.source == src && r.stocked)).map (·.link)).filter
      (fun l => !((collected.map (·.url)).filter
        (fun u => !excludedByUpdateFilter u)).contains l)).contains r0.link = true := by
    apply List.elem_eq_true_of_mem
    apply List.mem_filter.mpr
    refine ⟨List.mem_map.mpr ⟨r0, List.mem_filter.mpr
      ⟨List.getElem?_mem hi, by simp [hsrc, hstk]⟩, rfl⟩, ?_⟩
    rw [contains_eq_false_of_not_mem hnotin]
    rfl
  simp only [updateDatabase, hfilF, Bool.false_eq_true, if_false]
  constructor
  · rw [insertFold_getElem?]
    · rw [priceFold_getElem?, List.getElem?_map, hi]
      simp only [Option.map_some']
      rw [if_pos (by rw [hcNLS]; simp [hsrc])]
      rw [priceFold_row_not_mem _ _ _ _ (by simpa using hnotin)]
    · rw [priceFold_length, List.length_map]
      exact getElem?_lt_length hi
  · intro hmem
    exact hnotin (checkExistingUrls_subset hmem)

/-- C2 witness: one stocked row "u0" absent from a listing containing only
the non-excluded url "u1" transitions to unstocked with dates set. -/
theorem C2_absent_url_unstocked_witness :
    ([demoStockedRow "u0" "sweet_maria"][0]? = some (demoStockedRow "u0" "sweet_maria") ∧
     (demoStockedRow "u0" "sweet_maria").source = "sweet_maria" ∧
     (demoStockedRow "u0" "sweet_maria").stocked = true ∧
     "u0" ∉ [ProductData.mk "u1" (some 3)].map (·.url) ∧
     ([ProductData.mk "u1" (some 3)].map (·.url)).filter
       (fun u => !excludedByUpdateFilter u) ≠ []) ∧
    ((updateDatabase "sweet_maria" [ProductData.mk "u1" (some 3)]
        [demoStockedRow "u0" "sweet_maria"] (fun _ => none) 7).db[0]? =
      some { demoStockedRow "u0" "sweet_maria" with
        stocked := false
        unstocked_date := some 7
        last_updated := some 7 } ∧
     "u0" ∉ (updateDatabase "sweet_maria" [ProductData.mk "u1" (some 3)]
        [demoStockedRow "u0" "sweet_maria"] (fun _ => none) 7).processedNewUrls) :=
  ⟨⟨by decide, by decide, by decide, by decide, by decide⟩,
    C2_absent_url_unstocked "sweet_maria" [ProductData.mk "u1" (some 3)]
      [demoStockedRow "u0" "sweet_maria"] (fun _ => none) 7 0
      (demoStockedRow "u0" "sweet_maria") (by decide) (by decide) (by decide)
      (by decide) (by decide)⟩

/-- C3 (amended): for every url present in the collected listing, passing
the exclusion filter, and previously stocked, the run leaves the row
stocked with only `cost_lb` rewritten to the listed price — name,
provenance, descriptions, AI fields surviving unchanged — and the url is
never handed to detail fetch or enrichment, because it is already
persisted.  (As frozen the claim fails: a listed url matching an
exclusion pattern is unstocked instead.) -/
theorem C3_present_url_price_only (src : String) (collected : List ProductData)
    (db : List CatalogRow) (detail : String → Option NewProductData) (now : ℕ)
    (i : ℕ) (r0 : CatalogRow)
    (hi : db[i]? = some r0) (hsrc : r0.source = src) (hstk : r0.stocked = true)
    (hmem : r0.link ∈ collected.map (·.url))
    (hexc : excludedByUpdateFilter r0.link = false) :
    (updateDatabase src collected db detail now).db[i]? =
      some { r0 with stocked := true, cost_lb := priceMapGet collected r0.link } ∧
    r0.link ∉ (updateDatabase src collected db detail now).processedNewUrls := by
  have hin : r0.link ∈ (collected.map (·.url)).filter (fun u => !excludedByUpdateFilter u) :=
    List.mem_filter.mpr ⟨hmem, by simp [hexc]⟩
  have hfilF : ((collected.map (·.url)).filter (fun u => !excludedByUpdateFilter u)).isEmpty
      = false := by
    have hne : (collected.map (·.url)).filter (fun u => !excludedByUpdateFilter u) ≠ [] := by
      intro he
      rw [he] at hin
      exact List.not_mem_nil _ hin
    simp [hne]
  have hcNLS : (((db.filter (fun r => r.source == src && r.stocked)).map (·.link)).filter
      (fun l => !((collected.map (·.url)).filter
        (fun u => !excludedByUpdateFilter u)).contains l)).contains r0.link = false := by
    apply contains_eq_false_of_not_mem
    intro hm
    have h2 := (List.mem_filter.mp hm).2
    have hel : ((collected.map (·.url)).filter
        (fun u => !excludedByUpdateFilter u)).contains r0.link = true :=
      List.elem_eq_true_of_mem hin
    rw [hel] at h2
    simp at h2
  simp only [updateDatabase, hfilF, Bool.false_eq_true, if_false]
  constructor
  · rw [insertFold_getElem?]
    · rw [priceFold_getElem?, List.getElem?_map, hi]
      simp only [Option.map_some']
      rw [if_neg (by rw [hcNLS]; simp)]
      rw [priceFold_row_mem _ _ _ r0 hsrc hin]
    · rw [priceFold_length, List.length_map]
      exact getElem?_lt_length hi
  · intro hmemNew
    refine checkExistingUrls_not_known hmemNew
      { r0 with stocked := true, cost_lb := priceMapGet collected r0.link } ?_ rfl
    refine List.getElem?_mem (n := i) ?_
    rw [priceFold_getElem?, List.getElem?_map, hi]
    simp only [Option.map_some']
    rw [if_neg (by rw [hcNLS]; simp)]
    rw [priceFold_row_mem _ _ _ r0 hsrc hin]

/-- C3 witness: a stocked, listed, non-excluded url "u1" is price-updated
in place with everything else untouched and is not re-enriched. -/
theorem C3_present_url_price_only_witness :
    (([demoStockedRow "u1" "sweet_maria"][0]? = some (demoStockedRow "u1" "sweet_maria")) ∧
     (demoStockedRow "u1" "sweet_maria").source = "sweet_maria" ∧
     (demoStockedRow "u1" "sweet_maria").stocked = true ∧
     ("u1" ∈ [ProductData.mk "u1" (some 3)].map (·.url)) ∧
     excludedByUpdateFilter "u1" = false) ∧
    ((updateDatabase "sweet_maria" [ProductData.mk "u1" (some 3)]
        [demoStockedRow "u1" "sweet_maria"] (fun _ => none) 7).db[0]? =
      some { demoStockedRow "u1" "sweet_maria" with
        stocked := true
        cost_lb := priceMapGet [ProductData.mk "u1" (some 3)] "u1" } ∧
     "u1" ∉ (updateDatabase "sweet_maria" [ProductData.mk "u1" (some 3)]
        [demoStockedRow "u1" "sweet_maria"] (fun _ => none) 7).processedNewUrls) :=
  ⟨⟨by decide, by decide, by decide, by decide, by decide⟩,
    C3_present_url_price_only "sweet_maria" [ProductData.mk "u1" (some 3)]
      [demoStockedRow "u1" "sweet_maria"] (fun _ => none) 7 0
      (demoStockedRow "u1" "sweet_maria") (by decide) (by decide) (by decide)
      (by decide) (by decide)⟩

/-- C1: for every reconciliation run on a source, if the freshly collected
listing set is empty, `updateDatabase` returns the collection-empty
failure (`success = false`, reason "No URLs collected") and leaves the
persisted catalog — every stocked flag, unstocked_date and price —
untouched, handing nothing to enrichment. -/
theorem C1_empty_collection_preserves_catalog (src : String) (db : List CatalogRow)
    (detail : String → Option NewProductData) (now : ℕ) :
    (updateDatabase src [] db detail now).success = false ∧
    (updateDatabase src [] db detail now).reason = some "No URLs collected" ∧
    (updateDatabase src [] db detail now).db = db ∧
    (updateDatabase src [] db detail now).processedNewUrls = [] :=
  ⟨rfl, rfl, rfl, rfl⟩

/-- C10: the exclusion filter runs on the collected URL list before the
empty-collection check, and a collector failure surfaces as an empty list
(`SweetMariasSource.collectInitUrlsData` catches and returns `[]`); hence
a run whose collector yields only excluded URLs — or whose collector fails
internally — aborts as a collection failure with the catalog unchanged,
even though the raw listing set was non-empty. -/
theorem C10_excluded_or_failed_collection_aborts (src : String)
    (collected : List ProductData) (db : List CatalogRow)
    (detail : String → Option NewProductData) (now : ℕ) (e : String)
    (hne : collected ≠ [])
    (hexcl : ∀ p ∈ collected, excludedByUpdateFilter p.url = true) :
    ((updateDatabase src collected db detail now).success = false ∧
     (updateDatabase src collected db detail now).reason = some "No URLs collected" ∧
     (updateDatabase src collected db detail now).db = db ∧
     (updateDatabase src collected db detail now).processedNewUrls = []) ∧
    sweetMariasCollect (Except.error e) = [] ∧
    (updateDatabase src (sweetMariasCollect (Except.error e)) db detail now).success = false ∧
    (updateDatabase src (sweetMariasCollect (Except.error e)) db detail now).db = db := by
  have hfil : (collected.map (·.url)).filter (fun u => !excludedByUpdateFilter u) = [] := by
    rw [List.filter_eq_nil_iff]
    intro a ha
    obtain ⟨p, hp, rfl⟩ := List.mem_map.mp ha
    simp [hexcl p hp]
  have habort : updateDatabase src collected db detail now =
      { success := false, reason := some "No URLs collected", db := db,
        processedNewUrls := [] } := by
    simp [updateDatabase, hfil]
  refine ⟨⟨?_, ?_, ?_, ?_⟩, rfl, rfl, rfl⟩ <;> rw [habort]

/-- C10 witness: a non-empty collection consisting of one excluded
(`-blend`) URL aborts the run with the one-row catalog unchanged. -/
theorem C10_excluded_or_failed_collection_aborts_witness :
    ([ProductData.mk "x-blend.html" (some 1)] ≠ []) ∧
    (∀ p ∈ [ProductData.mk "x-blend.html" (some 1)], excludedByUpdateFilter p.url = true) ∧
    ((updateDatabase "sweet_maria" [ProductData.mk "x-blend.html" (some 1)]
        [demoStockedRow "u0" "sweet_maria"] (fun _ => none) 5).success = false ∧
      (updateDatabase "sweet_maria" [ProductData.mk "x-blend.html" (some 1)]
        [demoStockedRow "u0" "sweet_maria"] (fun _ => none) 5).db =
        [demoStockedRow "u0" "sweet_maria"]) :=
  ⟨by decide, by decide,
    (C10_excluded_or_failed_collection_aborts "sweet_maria"
      [ProductData.mk "x-blend.html" (some 1)] [demoStockedRow "u0" "sweet_maria"]
      (fun _ => none) 5 "boom" (by decide) (by decide)).1.1,
    (C10_excluded_or_failed_collection_aborts "sweet_maria"
      [ProductData.mk "x-blend.html" (some 1)] [demoStockedRow "u0" "sweet_maria"]
      (fun _ => none) 5 "boom" (by decide) (by decide)).1.2.2.1⟩

/-- C2 counterexample: the claim quantifies over runs with raw `L`
non-empty, but a non-empty `L` whose URLs are all excluded by the
source filter aborts the run, so a previously stocked URL absent from
`L` keeps `stocked = true` and its `unstocked_date` stays unset — the
claimed transition does not happen. -/
theorem C2_counterexample_excluded_listing_aborts :
    ([ProductData.mk "x-blend.html" (some 1)] ≠ []) ∧
    (demoStockedRow "u0" "sweet_maria").stocked = true ∧
    ("u0" ∉ [ProductData.mk "x-blend.html" (some 1)].map (·.url)) ∧
    (updateDatabase "sweet_maria" [ProductData.mk "x-blend.html" (some 1)]
        [demoStockedRow "u0" "sweet_maria"] (fun _ => none) 5).db =
      [demoStockedRow "u0" "sweet_maria"] ∧
    ((updateDatabase "sweet_maria" [ProductData.mk "x-blend.html" (some 1)]
        [demoStockedRow "u0" "sweet_maria"] (fun _ => none) 5).db.headD
        (demoStockedRow "u0" "sweet_maria")).stocked = true ∧
    ((updateDatabase "sweet_maria" [ProductData.mk "x-blend.html" (some 1)]
        [demoStockedRow "u0" "sweet_maria"] (fun _ => none) 5).db.headD
        (demoStockedRow "u0" "sweet_maria")).unstocked_date = none := by
  decide

/-- C3 counterexample: a URL present in `L` and previously stocked, but
matching an exclusion pattern (`-blend`), is marked unstocked by the run
instead of remaining `stocked = true` with only its price updated. -/
theorem C3_counterexample_excluded_url_unstocked :
    (("a-blend.html" : String) ∈
      [ProductData.mk "u1" (some 10), ProductData.mk "a-blend.html" (some 2)].map (·.url)) ∧
    (demoStockedRow "a-blend.html" "sweet_maria").stocked = true ∧
    ((updateDatabase "sweet_maria"
        [ProductData.mk "u1" (some 10), ProductData.mk "a-blend.html" (some 2)]
        [demoStockedRow "a-blend.html" "sweet_maria"] (fun _ => none) 5).db.headD
        (demoStockedRow "a-blend.html" "sweet_maria")).stocked = false := by
  decide

/-- C6 counterexample: in the current `generateContent` revision a
provider rate-limit error (HTTP 429) is dispatched to the model-fallback
path, not to the flat 60-second cooldown that clears the window. -/
theorem C6_counterexample_429_skips_cooldown :
    isRateLimitError err429RateLimit = true ∧
    dispatchV2 err429RateLimit ≠ ErrAction.rateLimitCooldown ∧
    dispatchV2 err429RateLimit = ErrAction.modelFailurePath := by
  decide

/-- C6 (amended): a provider rate-limit error during `generateContent`
triggers the flat 60 s cooldown with a cleared window only in the earlier
client revision; the current revision classifies it as model-blocked and
routes it to the model-fallback path instead.  Neither path consumes a
retry attempt. -/
theorem C6_rate_limit_error_handling (e : JsErr) (ts : List ℕ)
    (h : isRateLimitError e = true) :
    dispatchV1 e = ErrAction.rateLimitCooldown ∧
    consumesAttempt (dispatchV1 e) = false ∧
    handleRateLimitError ts = ([], 60000) ∧
    dispatchV2 e = ErrAction.modelFailurePath ∧
    consumesAttempt (dispatchV2 e) = false := by
  have h2 : isModelBlockedV2 e = true := by
    simp only [isRateLimitError, Bool.or_eq_true] at h
    simp only [isModelBlockedV2, Bool.or_eq_true]
    tauto
  have h1 : dispatchV1 e = ErrAction.rateLimitCooldown := by
    simp [dispatchV1, h]
  have h2d : dispatchV2 e = ErrAction.modelFailurePath := by
    simp [dispatchV2, h2]
  exact ⟨h1, by rw [h1]; rfl, rfl, h2d, by rw [h2d]; rfl⟩

/-- C6 witness: the amended behaviour at a concrete 429 error and a
one-element window. -/
theorem C6_rate_limit_error_handling_witness :
    isRateLimitError err429RateLimit = true ∧
    (dispatchV1 err429RateLimit = ErrAction.rateLimitCooldown ∧
     consumesAttempt (dispatchV1 err429RateLimit) = false ∧
     handleRateLimitError [17] = ([], 60000) ∧
     dispatchV2 err429RateLimit = ErrAction.modelFailurePath ∧
     consumesAttempt (dispatchV2 err429RateLimit) = false) :=
  ⟨by decide, C6_rate_limit_error_handling err429RateLimit [17] (by decide)⟩

/-- C8 counterexample: a profile whose color uses uppercase hex digits
validates successfully (the color regex is case-insensitive) but is
changed by `sanitizeTastingNotes`, which lowercases the color — so
sanitize does not return a structurally equal profile on every valid
profile. -/
theorem C8_counterexample_uppercase_color :
    (validateTastingNotes upperColorProfile).success = true ∧
    sanitizeTastingNotes upperColorProfile ≠ upperColorProfile := by
  decide

theorem validateTastingNotes_true_shape {p : TastingNotesInput}
    (h : (validateTastingNotes p).success = true) :
    validateTastingNotes p =
      { success := true, data := (validateTastingNotes p).data, errors := none } ∧
    ∃ v, (validateTastingNotes p).data = some v := by
  revert h
  simp only [validateTastingNotes]
  split
  · intro _
    exact ⟨rfl, _, rfl⟩
  · intro h
    simp at h

/-- C9 (amended): the tasting-profile generation step builds its prompt
from the long/short descriptions and the cupping notes — cupping notes
stand in for farm notes unconditionally, not only where farm notes are
unavailable, so farm notes never influence the result — and every profile
it accepts has passed sanitization followed by the validator, while a
profile failing validation is returned as a failure carrying the
validation errors. -/
theorem C9_tasting_generation_pipeline (d : CleaningData)
    (gen : String → Except String String) (parse : String → Option TastingNotesInput) :
    generateAiTastingNotesCleaner d gen parse =
      generateAiTastingNotesCleaner { d with farmNotes := none } gen parse ∧
    (∀ c : String, c ≠ "" →
      ("Cupping Notes: " ++ c) ∈
        labeledTastingParts d.descriptionLong d.descriptionShort (some c)) ∧
    (∀ t, generateAiTastingNotesCleaner d gen parse = some t →
      ∃ txt raw,
        gen (tastingNotesPrompt d.descriptionLong d.descriptionShort d.cuppingNotes) =
          Except.ok txt ∧
        parse txt = some raw ∧
        validateTastingNotes (sanitizeTastingNotes raw) =
          { success := true, data := some t, errors := none }) ∧
    (∀ txt raw,
      availableTastingDescriptions d.descriptionLong d.descriptionShort d.cuppingNotes ≠ "" →
      gen (tastingNotesPrompt d.descriptionLong d.descriptionShort d.cuppingNotes) =
        Except.ok txt →
      parse txt = some raw →
      (validateTastingNotes (sanitizeTastingNotes raw)).success = false →
      generateAiTastingNotesClient d.descriptionLong d.descriptionShort d.cuppingNotes
          gen parse =
        { success := false, data := none,
          error := some ("Tasting notes validation failed: " ++
            String.intercalate ", "
              ((validateTastingNotes (sanitizeTastingNotes raw)).errors.getD []) ++
            ". Raw response: " ++ txt) }) := by
  refine ⟨rfl, ?_, ?_, ?_⟩
  · intro c hc
    have ht : truthyStr (some c) = true := by
      simp [truthyStr, hc]
    simp [labeledTastingParts, ht]
  · intro t h
    unfold generateAiTastingNotesCleaner at h
    split at h
    · exact absurd h (by simp)
    · unfold generateAiTastingNotesClient at h
      split at h
      · simp at h
      · split at h
        · next e hgen => simp at h
        · next txt hgen =>
          split at h
          · next hparse => simp at h
          · next raw hparse =>
            simp only at h
            by_cases hvs : (validateTastingNotes (sanitizeTastingNotes raw)).success = true
            · rw [if_pos hvs] at h
              simp at h
              obtain ⟨hshape, v, hdata⟩ := validateTastingNotes_true_shape hvs
              refine ⟨txt, raw, hgen, hparse, ?_⟩
              exact hshape.trans (by rw [h])
            · rw [if_neg hvs] at h
              simp at h
  · intro txt raw hne hgen hparse hfail
    unfold generateAiTastingNotesClient
    rw [if_neg (by simpa using hne)]
    rw [hgen]
    dsimp only
    rw [hparse]
    dsimp only
    rw [if_neg (by simp [hfail])]

/-- C9 witness: with stub provider and parser, the cleaner accepts exactly
the sanitized-and-validated profile. -/
theorem C9_tasting_generation_pipeline_witness :
    generateAiTastingNotesCleaner farmNotesData genDemo parseDemo = some demoValidNotes ∧
    ∃ txt raw,
      genDemo (tastingNotesPrompt farmNotesData.descriptionLong
        farmNotesData.descriptionShort farmNotesData.cuppingNotes) = Except.ok txt ∧
      parseDemo txt = some raw ∧
      validateTastingNotes (sanitizeTastingNotes raw) =
        { success := true, data := some demoValidNotes, errors := none } :=
  ⟨by decide,
    (C9_tasting_generation_pipeline farmNotesData genDemo parseDemo).2.2.1
      demoValidNotes (by decide)⟩

/-- C9 counterexample: with farm notes available, the tasting-notes prompt
material still contains the cupping notes and not the farm notes — cupping
notes are used unconditionally, not only where farm notes are
unavailable. -/
theorem C9_counterexample_farm_notes_ignored :
    isNullOrEmpty farmNotesData.farmNotes = false ∧
    strIncludes
      (availableTastingDescriptions farmNotesData.descriptionLong
        farmNotesData.descriptionShort farmNotesData.cuppingNotes)
      "Cupping Notes: berry aromatics" = true ∧
    strIncludes
      (availableTastingDescriptions farmNotesData.descriptionLong
        farmNotesData.descriptionShort farmNotesData.cuppingNotes)
      "exceptional farm story" = false := by
  decide

/-- C5: eleven calls issued in immediate succession through the
`RateLimiter` yield the schedule 0, 6 s, …, 54 s, 61 s: calls 1–10 are
spaced at least `minDelayMs` apart; at the instant call 11 is issued all
ten recorded timestamps are inside the trailing 60 s window, so it is
suspended, returning strictly later, once fewer than ten recorded
timestamps remain inside the window; and every return records a new
timestamp equal to the return instant. -/
theorem C5_rate_limiter_eleven_call_schedule :
    (runCalls 11 [] 0).map Prod.fst =
      [0, 6000, 12000, 18000, 24000, 30000, 36000, 42000, 48000, 54000, 61000] ∧
    ((((runCalls 11 [] 0).map Prod.fst).take 10).zip
      ((((runCalls 11 [] 0).map Prod.fst).take 10).tail)).all
      (fun p => 6000 ≤ p.2 - p.1) = true ∧
    10 ≤ ((((runCalls 11 [] 0).map Prod.fst).take 10).filter
      (fun t => ((runCalls 11 [] 0).map Prod.fst).getD 9 0 - t < 60000)).length ∧
    ((runCalls 11 [] 0).map Prod.fst).getD 9 0 < ((runCalls 11 [] 0).map Prod.fst).getD 10 0 ∧
    ((((runCalls 11 [] 0).map Prod.fst).take 10).filter
      (fun t => ((runCalls 11 [] 0).map Prod.fst).getD 10 0 - t < 60000)).length < 10 ∧
    ((runCalls 11 [] 0).all fun r => r.2.getLast? == some r.1) = true := by
  decide

end CoffeeScraper
